import Mathlib

/-!
Verification development for the PocketBase FiveM resource
(`utils/config-loader.js`, `utils/process-utils.js`, `utils/server.js`).
The JavaScript is shallowly embedded: pure fragments become Lean functions,
effectful fragments (subprocess results, network probes, timers) take their
settled outcomes as explicit parameters.  Machine numbers of the source are
JS doubles holding small integers, embedded as `Int`/`Nat`.
-/

namespace PocketBaseSpec

/-! ## Character-list string primitives

JS string operations used by the source (`startsWith`, `includes`, and the
regex replaces of `config-loader.js`) are embedded as executable functions
over `List Char` (`String.data`). -/

/-- Named character constants, so that brace and quote characters never appear
in code position. -/
def quoteChar : Char := '\"'

def openBrace : Char := '\x7b'

def closeBrace : Char := '\x7d'

def dollarChar : Char := '$'

/-- `\s` of the source's regexes, restricted to the whitespace that occurs in
`config.lua` documents: blank, tab, carriage return, newline. -/
def isWsChar (c : Char) : Bool :=
  c == ' ' || c == '\t' || c == '\n' || c == '\r'

/-- Match a literal character sequence at the head of the input; `some rest`
on success. -/
def matchLit : List Char → List Char → Option (List Char)
  | [], l => some l
  | _ :: _, [] => none
  | p :: ps, c :: cs => if p == c then matchLit ps cs else none

/-- Maximal run of whitespace at the head (`\s*`): the run and the rest. -/
def splitWs : List Char → List Char × List Char
  | [] => ([], [])
  | c :: cs =>
    if isWsChar c then
      let (w, r) := splitWs cs
      (c :: w, r)
    else ([], c :: cs)

/-- `[^"]*"`: the characters before the next double quote and the rest after
it; `none` when no closing quote exists. -/
def scanToQuote : List Char → Option (List Char × List Char)
  | [] => none
  | c :: cs =>
    if c == quoteChar then some ([], cs)
    else
      match scanToQuote cs with
      | some (v, r) => some (c :: v, r)
      | none => none

/-- `[^}]*}`: the characters before the next closing brace and the rest after
it; `none` when no closing brace exists. -/
def scanToBrace : List Char → Option (List Char × List Char)
  | [] => none
  | c :: cs =>
    if c == closeBrace then some ([], cs)
    else
      match scanToBrace cs with
      | some (v, r) => some (c :: v, r)
      | none => none

/-- Maximal run of decimal digits at the head (`\d*`). -/
def takeDigits : List Char → List Char × List Char
  | [] => ([], [])
  | c :: cs =>
    if c.isDigit then
      let (d, r) := takeDigits cs
      (c :: d, r)
    else ([], c :: cs)

/-- Whether `sub` occurs as a contiguous subsequence (JS `String.includes`). -/
def listHasSub (sub : List Char) : List Char → Bool
  | [] => (matchLit sub []).isSome
  | c :: cs => (matchLit sub (c :: cs)).isSome || listHasSub sub cs

/-- JS `s.includes(sub)`. -/
def strHasSub (s sub : String) : Bool := listHasSub sub.data s.data

/-- JS `s.startsWith(pre)`. -/
def strStarts (s pre : String) : Bool := (matchLit pre.data s.data).isSome

/-! ## Configuration data model

The configuration record built by `config-loader.js` `load()` (its default
object, lines 28-72), with the fields used by `server.js`. -/

structure SMTPConfig where
  Enabled : Bool
  Host : String
  Port : Int
  Username : String
  Password : String
  LocalName : String
  TLS : Bool
deriving Repr, DecidableEq

structure S3Config where
  Enabled : Bool
  Bucket : String
  Region : String
  Endpoint : String
  AccessKey : String
  SecretKey : String
  ForcePathStyle : Bool
deriving Repr, DecidableEq

structure MigrationsConfig where
  AutoApply : Bool
  Dir : String
deriving Repr, DecidableEq

/-- `Config.Backup`.  `BackupTag` embeds the source field `BackupPrefix`, the
key prefix marking automatically created backups. -/
structure BackupConfig where
  Enabled : Bool
  OnStartup : Bool
  Schedule : Int
  KeepLast : Int
  BackupTag : String
deriving Repr, DecidableEq

structure SuperuserConfig where
  Email : String
  Password : String
deriving Repr, DecidableEq

structure AdvancedConfig where
  Dev : Bool
  AutoMigrate : Bool
  PublicDir : String
  DataDir : String
  SMTP : SMTPConfig
  S3 : S3Config
deriving Repr, DecidableEq

structure Config where
  ExposeAdmin : Bool
  Host : String
  Port : Int
  AutoUpdate : Bool
  Superuser : SuperuserConfig
  Migrations : MigrationsConfig
  Backup : BackupConfig
  Advanced : AdvancedConfig
deriving Repr, DecidableEq

/-- The loader's default configuration object (`config-loader.js` lines 28-72). -/
def defaultConfig : Config where
  ExposeAdmin := false
  Host := ""
  Port := 8090
  AutoUpdate := false
  Superuser := { Email := "", Password := "" }
  Migrations := { AutoApply := true, Dir := "pb_migrations" }
  Backup :=
    { Enabled := false, OnStartup := true, Schedule := 0, KeepLast := 7
      BackupTag := "auto_" }
  Advanced :=
    { Dev := false, AutoMigrate := true, PublicDir := "pb_public"
      DataDir := "pb_data"
      SMTP :=
        { Enabled := false, Host := "", Port := 587, Username := ""
          Password := "", LocalName := "", TLS := true }
      S3 :=
        { Enabled := false, Bucket := "", Region := "", Endpoint := ""
          AccessKey := "", SecretKey := "", ForcePathStyle := false } }

/-! ## validateConfig (`server.js` lines 419-468)

The accumulated error list, in source order.  JS truthiness on the string
fields (`!Host`, `Email && ...`) is emptiness; on the numeric SMTP port,
`!Port` is `Port = 0`. -/

def validateConfigErrors (c : Config) : List String :=
  (if c.Port < 1 ∨ 65535 < c.Port then
    ["Invalid port: " ++ toString c.Port ++ " (must be 1-65535)"]
  else []) ++
  (if c.Superuser.Email ≠ "" ∧ strHasSub c.Superuser.Email "@" = false then
    ["Invalid superuser email format: " ++ c.Superuser.Email]
  else []) ++
  (if c.Advanced.SMTP.Enabled then
    (if c.Advanced.SMTP.Host = "" then ["SMTP enabled but Host is empty"] else []) ++
    (if c.Advanced.SMTP.Port = 0 ∨ c.Advanced.SMTP.Port < 1 then
      ["SMTP enabled but Port is invalid"]
    else [])
  else []) ++
  (if c.Advanced.S3.Enabled then
    (if c.Advanced.S3.Bucket = "" then ["S3 enabled but Bucket is empty"] else []) ++
    (if c.Advanced.S3.Region = "" then ["S3 enabled but Region is empty"] else [])
  else []) ++
  (if c.Backup.Enabled then
    (if c.Backup.KeepLast < 0 then ["Backup.KeepLast must be >= 0"] else []) ++
    (if c.Backup.Schedule < 0 then ["Backup.Schedule must be >= 0"] else [])
  else [])

/-- `validateConfig()` returns `true` exactly when no error accumulated. -/
def validateConfig (c : Config) : Bool := (validateConfigErrors c).isEmpty

/-- Settled outcomes of the effectful steps of `startPocketBase` that gate the
`spawn` call: whether `getPocketBasePath()` found the executable and whether
`createSuperuser` reported success. -/
structure StartEnv where
  executableFound : Bool
  superuserOk : Bool
deriving Repr, DecidableEq

/-- Spawn-reachability of `startPocketBase` (`server.js` lines 699-786): the
child process is spawned iff `validateConfig()` passed, the executable was
found, and `createSuperuser` succeeded; `checkAndUpdate`,
`applyPendingMigrations` and `performStartupBackup` never abort the
sequence (each early `return` precedes the `spawn` call). -/
def startReachesSpawn (c : Config) (env : StartEnv) : Bool :=
  validateConfig c && env.executableFound && env.superuserOk

/-! ## Backup rotation (`server.js` lines 473-523) -/

/-- A record of `listBackups()`: its key and its creation time, the latter as
a timestamp (`new Date(b.created)` of the source compares numerically). -/
structure BackupRecord where
  key : String
  created : Int
deriving Repr, DecidableEq

/-- The source's comparator `(a, b) => new Date(b.created) - new Date(a.created)`:
`a` may stay before `b` iff `b.created ≤ a.created` (descending). -/
def descRel (a b : BackupRecord) : Prop := b.created ≤ a.created

instance : DecidableRel descRel := fun a b =>
  inferInstanceAs (Decidable (b.created ≤ a.created))

instance : IsTotal BackupRecord descRel := ⟨fun a b => le_total b.created a.created⟩

instance : IsTrans BackupRecord descRel := ⟨fun _ _ _ hab hbc => le_trans hbc hab⟩

/-- `backups.sort((a, b) => new Date(b.created) - new Date(a.created))`:
JS `Array.prototype.sort` is stable, and a stable sort is determined by the
comparator, so the stable `List.insertionSort` embeds it. -/
def sortByCreatedDesc (l : List BackupRecord) : List BackupRecord :=
  List.insertionSort descRel l

/-- `manageBackupRotation()`, returning the records passed to `deleteBackup`
(the source deletes them in this order).  Mirrors the source: no-op unless
enabled and `KeepLast > 0`; no-op when the full listing is not larger than
`KeepLast`; otherwise filter to keys starting with the automatic-backup
prefix, sort by creation time descending, and delete everything past the
first `KeepLast`. -/
def manageBackupRotation (cfg : BackupConfig) (backups : List BackupRecord) :
    List BackupRecord :=
  if ¬cfg.Enabled ∨ cfg.KeepLast ≤ 0 then []
  else if (backups.length : Int) ≤ cfg.KeepLast then []
  else
    (sortByCreatedDesc
      (backups.filter fun b => strStarts b.key cfg.BackupTag)).drop cfg.KeepLast.toNat

/-! ## Bind address and public URL resolution (`server.js` lines 118-151, 719-750) -/

/-- `/^[a-zA-Z0-9.-]+/` character class of the domain heuristic. -/
def isDomainChar (c : Char) : Bool :=
  c.isAlpha || c.isDigit || c == '.' || c == '-'

/-- `\.[a-zA-Z]{2,}` at the head of the input. -/
def domainSuffixOk : List Char → Bool
  | '.' :: a :: b :: _ => a.isAlpha && b.isAlpha
  | _ => false

/-- After at least one domain character has been consumed: can
`[a-zA-Z0-9.-]*\.[a-zA-Z]{2,}` still complete here?  Satisfiability of
the regex match, which is what the source's `test` asks. -/
def domainScanTail (l : List Char) : Bool :=
  domainSuffixOk l ||
    match l with
    | [] => false
    | c :: cs => isDomainChar c && domainScanTail cs

/-- `/^[a-zA-Z0-9.-]+\.[a-zA-Z]{2,}/.test(s)`. -/
def domainTest (s : List Char) : Bool :=
  match s with
  | [] => false
  | c :: cs => isDomainChar c && domainScanTail cs

/-- `/^\d+\.\d+\.\d+\.\d+/` at the head of the input: four dot-separated digit
runs; `some rest` on success. -/
def matchIpv4At (l : List Char) : Option (List Char) := do
  let (d1, r1) := takeDigits l
  if d1.isEmpty then none else
  let r2 ← matchLit ['.'] r1
  let (d2, r3) := takeDigits r2
  if d2.isEmpty then none else
  let r4 ← matchLit ['.'] r3
  let (d3, r5) := takeDigits r4
  if d3.isEmpty then none else
  let r6 ← matchLit ['.'] r5
  let (d4, r7) := takeDigits r6
  if d4.isEmpty then none else
  some r7

/-- `/^\d+\.\d+\.\d+\.\d+/.test(s)`. -/
def ipv4Test (s : List Char) : Bool := (matchIpv4At s).isSome

/-- `/^\d+\.\d+\.\d+\.\d+$/.test(s)`. -/
def ipv4FullTest (s : List Char) : Bool :=
  match matchIpv4At s with
  | some [] => true
  | _ => false

/-- `/^\d+\.\d+\.\d+\.\d+:\d+$/.test(s)`. -/
def ipv4PortFullTest (s : List Char) : Bool :=
  match matchIpv4At s with
  | some (':' :: r) =>
    let (d, rest) := takeDigits r
    !d.isEmpty && rest.isEmpty
  | _ => false

/-- `hostParam.replace(/^https?:\/\//, "")`. -/
def stripScheme (s : String) : String :=
  match matchLit "http://".data s.data with
  | some r => String.mk r
  | none =>
    match matchLit "https://".data s.data with
    | some r => String.mk r
    | none => s

/-- `buildSmartUrl(hostParam, port)` (`server.js` lines 118-151); `none` is the
source's `null`. -/
def buildSmartUrl (hostParam : String) (port : Int) : Option String :=
  if hostParam = "" then none
  else if strStarts hostParam "http://" || strStarts hostParam "https://" then
    let hostPart := stripScheme hostParam
    if listHasSub [':'] hostPart.data then some hostParam
    else if ipv4Test hostPart.data then some (hostParam ++ ":" ++ toString port)
    else some hostParam
  else if ipv4PortFullTest hostParam.data then some ("http://" ++ hostParam)
  else if domainTest hostParam.data && !ipv4Test hostParam.data then
    some ("https://" ++ hostParam)
  else if ipv4FullTest hostParam.data then
    some ("http://" ++ hostParam ++ ":" ++ toString port)
  else some ("http://" ++ hostParam ++ ":" ++ toString port)

/-- The bind/URL block's effect on `startupStatus`: bind address, public URL
(`none` embeds a JS `null` flowing out of `buildSmartUrl`), and the warnings
pushed. -/
structure UrlResolution where
  bindAddress : String
  publicUrl : Option String
  warnings : List String
deriving Repr, DecidableEq

/-- Bind-address and URL resolution of `startPocketBase` (`server.js` lines
719-750).  `publicIPResult` is the settled value of `getPublicIP()`: `none`
for the error path's `null`; the source's `!publicIP` is also true for an
empty string body. -/
def resolveBindAndUrl (c : Config) (publicIPResult : Option String) : UrlResolution :=
  if c.ExposeAdmin then
    let bindAddress := "0.0.0.0:" ++ toString c.Port
    if c.Host = "" then
      match publicIPResult with
      | none =>
        ⟨bindAddress, some ("http://0.0.0.0:" ++ toString c.Port),
          ["Could not detect public IP - configure Config.Host manually"]⟩
      | some ip =>
        if ip = "" then
          ⟨bindAddress, some ("http://0.0.0.0:" ++ toString c.Port),
            ["Could not detect public IP - configure Config.Host manually"]⟩
        else
          ⟨bindAddress, some ("http://" ++ ip ++ ":" ++ toString c.Port), []⟩
    else ⟨bindAddress, buildSmartUrl c.Host c.Port, []⟩
  else
    ⟨"127.0.0.1:" ++ toString c.Port, some ("http://localhost:" ++ toString c.Port), []⟩

/-! ## Readiness handshake (`server.js` lines 845-886)

The `clientReadyPromise` races a 3000 ms timer (which records
`clientAuthenticated = false` and resolves) against the
`pocketbase:client:ready` handler (which cancels the timer, records the
received boolean verbatim and resolves).  The race is embedded as a small
event semantics. -/

def readinessTimeoutMs : Nat := 3000

structure HandshakeState where
  clientAuthenticated : Option Bool
  resumed : Bool
  timerCancelled : Bool
deriving Repr, DecidableEq

/-- `startupStatus.clientAuthenticated` starts as the source's `null`; nothing
has resolved the promise; the timer is armed. -/
def hsInit : HandshakeState :=
  ⟨none, false, false⟩

inductive HsEvent where
  | clientReady (authenticated : Bool)
  | timerFire
deriving Repr, DecidableEq

/-- One event of the race.  The `pocketbase:client:ready` handler runs
`clearTimeout`, stores the acknowledged boolean, and resolves; the timer
callback (if not cancelled) stores `false` and resolves. -/
def hsStep (s : HandshakeState) : HsEvent → HandshakeState
  | .clientReady b => { s with timerCancelled := true, clientAuthenticated := some b, resumed := true }
  | .timerFire =>
    if s.timerCancelled then s
    else { s with clientAuthenticated := some false, resumed := true }

/-- An acknowledgment event: when it arrived (ms after the server-ready
signal) and the `authenticated` boolean it carried. -/
structure HandshakeAck where
  arrivalMs : Nat
  authenticated : Bool
deriving Repr, DecidableEq

/-- The ordered events delivered to the race: an acknowledgment earlier than
the 3000 ms timer pre-empts it (its handler cancels the timer); otherwise the
timer fires first and a late acknowledgment (the listener is never removed)
arrives after it; with no acknowledgment only the timer fires. -/
def hsEventsOf (ack : Option HandshakeAck) : List HsEvent :=
  match ack with
  | some a =>
    if a.arrivalMs < readinessTimeoutMs then [.clientReady a.authenticated]
    else [.timerFire, .clientReady a.authenticated]
  | none => [.timerFire]

/-- The state at the instant the awaited promise first resolves (the first
event of the race always resolves it): this is the `clientAuthenticated`
value with which the startup sequence continues past `await clientReadyPromise`. -/
def resumeState (ack : Option HandshakeAck) : HandshakeState :=
  match hsEventsOf ack with
  | [] => hsInit
  | e :: _ => hsStep hsInit e

/-! ## retryWithBackoff (`process-utils.js` lines 69-94)

`fn` is embedded as a function from the (1-based) invocation number to that
invocation's settled outcome.  The result carries the final outcome (`.error
none` embeds rethrowing the initial `undefined` when `maxAttempts < 1`), the
inter-attempt delays actually slept, and the number of invocations of `fn`. -/

/-- The delay slept after a failed attempt:
`Math.min(baseDelay * Math.pow(2, attempt - 1), maxDelay)`. -/
def backoffDelay (baseDelay maxDelay : Nat) (attempt : Nat) : Nat :=
  min (baseDelay * 2 ^ (attempt - 1)) maxDelay

/-- The `for` loop of `retryWithBackoff`, with the remaining iteration count
(`maxAttempts - attempt + 1`) made a structural fuel argument: `remaining = 0`
is loop exit (rethrow `lastError`), `remaining = 1` means
`attempt = maxAttempts` so a failure is rethrown without a delay, and
otherwise a failure sleeps `backoffDelay` and retries. -/
def retryGoF (fn : Nat → Except ε α) (baseDelay maxDelay : Nat) :
    Nat → Nat → Option ε → Except (Option ε) α × List Nat × Nat
  | 0, _, lastError => (.error lastError, [], 0)
  | remaining + 1, attempt, _ =>
    match fn attempt with
    | .ok a => (.ok a, [], 1)
    | .error e =>
      if remaining = 0 then (.error (some e), [], 1)
      else
        let r := retryGoF fn baseDelay maxDelay remaining (attempt + 1) (some e)
        (r.1, backoffDelay baseDelay maxDelay attempt :: r.2.1, r.2.2 + 1)

/-- `retryWithBackoff(fn, maxAttempts, baseDelay, maxDelay)`: attempts are
numbered from 1; the result carries the final outcome, the delays slept
between attempts, and the number of invocations of `fn`.  `.error none`
embeds rethrowing the initial `undefined` when `maxAttempts < 1`. -/
def retryWithBackoff (fn : Nat → Except ε α)
    (maxAttempts : Nat := 10) (baseDelay : Nat := 100) (maxDelay : Nat := 2000) :
    Except (Option ε) α × List Nat × Nat :=
  retryGoF fn baseDelay maxDelay maxAttempts 1 none

/-! ## Superuser provisioning (`server.js` lines 299-350) -/

/-- The settled `{code, stdout, stderr}` of a `spawnWithTimeout` call. -/
structure UpsertResult where
  code : Int
  stdout : String
  stderr : String
deriving Repr, DecidableEq

/-- Settled outcomes of the effects inside `createSuperuser`: the value of
`publicIP` handed in by `startPocketBase` (`none` = `null`), the password
`generateRandomPassword()` would return if called, the result of the
`superuser upsert` subcommand for the credentials actually passed, and
whether `configLoader.updateSuperuserCredentials` would succeed. -/
structure SuperuserEnv where
  publicIP : Option String
  generatedPassword : String
  upsert : String → String → UpsertResult
  writeOk : Bool

/-- Everything `createSuperuser` does that the rest of the program can see:
the returned boolean, the credentials passed to the `upsert` subcommand,
whether `updateSuperuserCredentials` was invoked, the one-time display fields
(`startupStatus.superuserEmail` and `superuserPassword`, `""` = untouched), the cached
configuration credentials afterwards, and the accumulated errors/warnings. -/
structure SuperuserOutcome where
  success : Bool
  usedEmail : String
  usedPassword : String
  wroteCredentials : Bool
  displayEmail : String
  displayPassword : String
  newConfigEmail : String
  newConfigPassword : String
  errors : List String
  warnings : List String
deriving Repr, DecidableEq

/-- `createSuperuser(pbPath, publicIP)` over the configured credentials.
`hasConfigCredentials` is JS truthiness: both strings non-empty.  The
generated form is `admin@{publicIP || "localhost"}.local` with a freshly
generated password.  Success is `code === 0` or the stdout marker.  Only
freshly generated credentials are written back (updating the loader's cache
only when the write succeeds) and stored for one-time display. -/
def createSuperuser (cfgEmail cfgPassword : String) (env : SuperuserEnv) :
    SuperuserOutcome :=
  let hasConfigCredentials := cfgEmail ≠ "" ∧ cfgPassword ≠ ""
  let domain :=
    match env.publicIP with
    | none => "localhost"
    | some ip => if ip = "" then "localhost" else ip
  let email := if hasConfigCredentials then cfgEmail else "admin@" ++ domain ++ ".local"
  let password := if hasConfigCredentials then cfgPassword else env.generatedPassword
  let needsConfigUpdate := ¬(cfgEmail ≠ "" ∧ cfgPassword ≠ "")
  let result := env.upsert email password
  if result.code = 0 ∨ strHasSub result.stdout "Successfully saved superuser" then
    if needsConfigUpdate then
      { success := true, usedEmail := email, usedPassword := password
        wroteCredentials := true
        displayEmail := email, displayPassword := password
        newConfigEmail := if env.writeOk then email else cfgEmail
        newConfigPassword := if env.writeOk then password else cfgPassword
        errors := []
        warnings := if env.writeOk then [] else ["Failed to save credentials to config.lua"] }
    else
      { success := true, usedEmail := email, usedPassword := password
        wroteCredentials := false
        displayEmail := "", displayPassword := ""
        newConfigEmail := cfgEmail, newConfigPassword := cfgPassword
        errors := [], warnings := [] }
  else
    { success := false, usedEmail := email, usedPassword := password
      wroteCredentials := false
      displayEmail := "", displayPassword := ""
      newConfigEmail := cfgEmail, newConfigPassword := cfgPassword
      errors := ["Failed to configure superuser (code " ++ toString result.code ++ ")"]
      warnings := [] }

/-! ## Health probe (`server.js` lines 272-294)

`checkPublicUrlHealth(url)` can throw synchronously inside the promise
executor, which rejects the returned promise: `new URL(url)` throws on an
unparseable URL, and — because the code then picks the `http` module for
every non-`https:` protocol — `http.get({url}/api/health)` throws
`ERR_INVALID_PROTOCOL` for any parseable URL whose scheme is not `http:`.
Otherwise it performs one GET of `{url}/api/health` with a 5000 ms timeout
and resolves `true` iff the response status is 200; the `error` and `timeout`
events resolve `false`. -/

/-- The settled outcome of the single GET. -/
inductive HealthResponse where
  | status (code : Int)
  | netError
  | timedOut
deriving Repr, DecidableEq

def healthTimeoutMs : Nat := 5000

/-- The URL actually requested. -/
def healthRequestUrl (url : String) : String := url ++ "/api/health"

def isLabelChar (c : Char) : Bool := c.isAlpha || c.isDigit || c == '-'

/-- Split a host into its dot-separated labels. -/
def splitDotGo : List Char → List Char → List (List Char)
  | [], acc => [acc.reverse]
  | c :: cs, acc => if c == '.' then acc.reverse :: splitDotGo cs [] else splitDotGo cs (c :: acc)

/-- Decimal value of a digit run. -/
def charsToNat (l : List Char) : Nat := l.foldl (fun n c => n * 10 + (c.toNat - 48)) 0

def allDigits (l : List Char) : Bool := !l.isEmpty && l.all (·.isDigit)

/-- A decimal IPv4 octet the platform parser accepts without octal/overflow
surprises: digits, no superfluous leading zero, value ≤ 255. -/
def ipv4OctetOk (l : List Char) : Bool :=
  allDigits l
    && (match l with
        | '0' :: rest => rest.isEmpty
        | _ => true)
    && charsToNat l ≤ 255

def ipv4HostOk (labels : List (List Char)) : Bool :=
  labels.length == 4 && labels.all ipv4OctetOk

/-- A final host label that the platform treats as a number (triggering its
IPv4 parser): all digits, or `0x`/`0X`-prefixed. -/
def lastLabelNumeric (l : List Char) : Bool :=
  allDigits l || (matchLit "0x".data l).isSome || (matchLit "0X".data l).isSome

def domainHostOk (labels : List (List Char)) : Bool :=
  labels.all (fun lb => !lb.isEmpty && lb.all isLabelChar)
    && (match labels.getLast? with
        | some lb => !lastLabelNumeric lb
        | none => false)

/-- A host on which `new URL` is known to succeed: a valid dotted-quad IPv4,
or a domain of non-empty alphanumeric-or-hyphen labels whose final label is
not numeric (a numeric final label routes the host through the platform's
IPv4 parser, which throws on anything but a valid address). -/
def hostOk (host : List Char) : Bool :=
  ipv4HostOk (splitDotGo host []) || domainHostOk (splitDotGo host [])

def isPathChar (c : Char) : Bool :=
  c.isAlpha || c.isDigit || c == '/' || c == '.' || c == '-' || c == '_'

/-- Maximal run of host characters at the head. -/
def takeHostRun : List Char → List Char × List Char
  | [] => ([], [])
  | c :: cs =>
    if isLabelChar c || c == '.' then
      let (h, r) := takeHostRun cs
      (c :: h, r)
    else ([], c :: cs)

/-- `host [":" port] ["/" path]` with a known-good host, a port ≤ 65535 and a
plain path. -/
def hostPortPathOk (l : List Char) : Bool :=
  let (host, r1) := takeHostRun l
  if host.isEmpty then false
  else if !hostOk host then false
  else
    match r1 with
    | [] => true
    | ':' :: r2 =>
      let (d, r3) := takeDigits r2
      if !allDigits d then false
      else if 65535 < charsToNat d then false
      else
        (match r3 with
        | [] => true
        | '/' :: p => p.all isPathChar
        | _ => false)
    | '/' :: p => p.all isPathChar
    | _ => false

/-- Modelled from the platform URL/HTTP stack (code not in this repository):
a conservative under-approximation of the URL strings on which the executor
of `checkPublicUrlHealth` completes without throwing — an explicit `http://`
or `https://` scheme (so the module the code picks matches the scheme of
`{url}/api/health` and the `get` call does not throw
`ERR_INVALID_PROTOCOL`), a host `new URL` accepts, an optional in-range
port and an optional plain path.  Strings outside this set are mapped to the
rejection path below; that mapping is exact on the categories the theorems
use — empty input, schemeless input, a bare scheme with an empty host, a
parseable non-http(s) scheme — while some exotic hosts outside the modelled
set would in fact resolve, so the resolution theorems quantify only inside
it. -/
def probeUrlOk (url : String) : Bool :=
  match matchLit "http://".data url.data with
  | some rest => hostPortPathOk rest
  | none =>
    match matchLit "https://".data url.data with
    | some rest => hostPortPathOk rest
    | none => false

/-- `checkPublicUrlHealth(url)` with the GET's outcome settled as `resp`:
`.error` embeds a rejected promise (a synchronous throw of `new URL` or of
the scheme-mismatched `get`), `.ok b` a promise resolved with `b`. -/
def checkPublicUrlHealth (url : String) (resp : HealthResponse) : Except String Bool :=
  if probeUrlOk url then
    .ok (match resp with
      | .status code => code = 200
      | .netError => false
      | .timedOut => false)
  else .error "synchronous throw in executor"

/-! ## spawnWithTimeout (`process-utils.js` lines 18-59)

The executor first calls `child_process.spawn(command, args, ...)`: Node
validates those arguments synchronously and throws before any child exists
when they are malformed, and a throw inside the executor rejects the returned
promise.  Otherwise the executor wires `resolve` to the child's terminal
events: `close` resolves `{code, stdout, stderr}` with the collected streams,
`error` resolves `{code: -1, stdout, stderr: err.message}`; nothing on those
paths calls `reject`. -/

/-- The child's terminal event: `close` (whose code is `null` when the child
was killed by a signal) or `error`. -/
inductive SpawnEvent where
  | closed (code : Option Int)
  | errored (message : String)
deriving Repr, DecidableEq

structure SpawnResult where
  code : Option Int
  stdout : String
  stderr : String
deriving Repr, DecidableEq

def nulChar : Char := '\x00'

/-- Modelled from the platform's `child_process.spawn` argument validation
(code not in this repository): spawn throws `ERR_INVALID_ARG_VALUE`
synchronously when the file is empty or the file or an argument contains a
null byte; command/argument lists passing this validation make spawn return a
child whose failures surface as the asynchronous `error` event instead. -/
def spawnArgsOk (command : String) (args : List String) : Bool :=
  !command.isEmpty && !command.data.contains nulChar
    && args.all (fun a => !a.data.contains nulChar)

/-- `spawnWithTimeout(command, args, options, timeoutMs)` with the collected
stream contents and the terminal event settled.  `.error` embeds the rejected
promise of the synchronous spawn throw; `.ok` a promise resolved with the
`{code, stdout, stderr}` record. -/
def spawnWithTimeout (command : String) (args : List String) (_timeoutMs : Nat)
    (collectedOut collectedErr : String) (ev : SpawnEvent) : Except String SpawnResult :=
  if spawnArgsOk command args then
    .ok (match ev with
      | .closed code => ⟨code, collectedOut, collectedErr⟩
      | .errored message => ⟨some (-1), collectedOut, message⟩)
  else .error "ERR_INVALID_ARG_VALUE"

/-! ## In-place configuration rewrites (`config-loader.js` lines 245-278, 293-422)

`updateSuperuserCredentials` and `updateAdvancedSettings` rewrite the raw
`config.lua` text with first-occurrence regex replaces.  The patterns used —
`KEY\s*=\s*"[^"]*"`, `KEY\s*=\s*\d+`, `KEY\s*=\s*(true|false)`,
`KEY\s*=\s*\{[^}]+\}` — are embedded as executable matchers over `List Char`.
Replacement values are inserted literally (the JS `$`-escape handling inside
inserted values is not modelled; theorems about parametric values therefore
assume dollar-free values). -/

/-- Match `KEY\s*=\s*"([^"]*)"` at the head: `(g1, oldValue, rest)` where `g1`
is the capture `(KEY\s*=\s*)` of `updateSuperuserCredentials` and the match is
`g1 ++ "\"" ++ oldValue ++ "\"" ++ rest⁻¹`. -/
def matchFieldAt (key : List Char) (l : List Char) : Option (List Char × List Char × List Char) :=
  match matchLit key l with
  | none => none
  | some r1 =>
    let (w1, r2) := splitWs r1
    match matchLit ['='] r2 with
    | none => none
    | some r3 =>
      let (w2, r4) := splitWs r3
      match r4 with
      | [] => none
      | c :: r5 =>
        if c == quoteChar then
          match scanToQuote r5 with
          | some (v, rest) => some (key ++ w1 ++ '=' :: w2, v, rest)
          | none => none
        else none

/-- Match `KEY\s*=\s*\d+` at the head: the rest after the digits. -/
def matchNumFieldAt (key : List Char) (l : List Char) : Option (List Char) :=
  match matchLit key l with
  | none => none
  | some r1 =>
    let (_, r2) := splitWs r1
    match matchLit ['='] r2 with
    | none => none
    | some r3 =>
      let (_, r4) := splitWs r3
      let (d, rest) := takeDigits r4
      if d.isEmpty then none else some rest

/-- Match `KEY\s*=\s*(true|false)` at the head: the rest after the literal. -/
def matchBoolFieldAt (key : List Char) (l : List Char) : Option (List Char) :=
  match matchLit key l with
  | none => none
  | some r1 =>
    let (_, r2) := splitWs r1
    match matchLit ['='] r2 with
    | none => none
    | some r3 =>
      let (_, r4) := splitWs r3
      match matchLit "true".data r4 with
      | some rest => some rest
      | none => matchLit "false".data r4

/-- Match `KEY\s*=\s*\{([^}]+)\}` at the head: `(content, rest)`. -/
def matchSectionAt (key : List Char) (l : List Char) : Option (List Char × List Char) :=
  match matchLit key l with
  | none => none
  | some r1 =>
    let (_, r2) := splitWs r1
    match matchLit ['='] r2 with
    | none => none
    | some r3 =>
      let (_, r4) := splitWs r3
      match r4 with
      | [] => none
      | c :: r5 =>
        if c == openBrace then
          match scanToBrace r5 with
          | some (content, rest) => if content.isEmpty then none else some (content, rest)
          | none => none
        else none

/-- First-occurrence replace, the core of JS `String.replace` with a
non-global regex: `attempt` tries a match at the current head and returns the
replaced text plus the rest; scanning proceeds left to right and the input is
returned unchanged (`none`) when nothing matches. -/
def replaceFirstGo (attempt : List Char → Option (List Char × List Char)) :
    List Char → Option (List Char)
  | [] =>
    match attempt [] with
    | some (rep, rest) => some (rep ++ rest)
    | none => none
  | c :: cs =>
    match attempt (c :: cs) with
    | some (rep, rest) => some (rep ++ rest)
    | none =>
      match replaceFirstGo attempt cs with
      | some out => some (c :: out)
      | none => none

/-- `content.replace(/(KEY\s*=\s*)"[^"]*"/, $1"newVal")`: keeps the captured
spacing, swaps the quoted value. -/
def replaceFieldKeep (key newVal l : List Char) : List Char :=
  (replaceFirstGo
    (fun s =>
      match matchFieldAt key s with
      | some (g1, _, rest) => some (g1 ++ quoteChar :: (newVal ++ [quoteChar]), rest)
      | none => none) l).getD l

/-- `content.replace(/KEY\s*=\s*"[^"]*"/, KEY = "newVal")`: the whole match is
replaced by the literally spelled `KEY = "newVal"` (the source's
`updateAdvancedSettings` writes the replacement without a capture). -/
def replaceQuotedLit (key newVal l : List Char) : List Char :=
  (replaceFirstGo
    (fun s =>
      match matchFieldAt key s with
      | some (_, _, rest) =>
        some (key ++ ' ' :: '=' :: ' ' :: quoteChar :: (newVal ++ [quoteChar]), rest)
      | none => none) l).getD l

/-- `content.replace(/KEY\s*=\s*\d+/, KEY = n)`. -/
def replaceNumLit (key newVal l : List Char) : List Char :=
  (replaceFirstGo
    (fun s =>
      match matchNumFieldAt key s with
      | some rest => some (key ++ ' ' :: '=' :: ' ' :: newVal, rest)
      | none => none) l).getD l

/-- `content.replace(/KEY\s*=\s*(true|false)/, KEY = b)`. -/
def replaceBoolLit (key newVal l : List Char) : List Char :=
  (replaceFirstGo
    (fun s =>
      match matchBoolFieldAt key s with
      | some rest => some (key ++ ' ' :: '=' :: ' ' :: newVal, rest)
      | none => none) l).getD l

/-- `content.match(/KEY\s*=\s*\{([^}]+)\}/s)`: the first section's content. -/
def findSectionGo (key : List Char) : List Char → Option (List Char)
  | [] =>
    match matchSectionAt key [] with
    | some (content, _) => some content
    | none => none
  | c :: cs =>
    match matchSectionAt key (c :: cs) with
    | some (content, _) => some content
    | none => findSectionGo key cs

/-- `doc.replace(/KEY\s*=\s*\{[^}]+\}/s, KEY = {newContent})`. -/
def replaceSectionLit (key newContent l : List Char) : List Char :=
  (replaceFirstGo
    (fun s =>
      match matchSectionAt key s with
      | some (_, rest) =>
        some (key ++ ' ' :: '=' :: ' ' :: openBrace :: (newContent ++ [closeBrace]), rest)
      | none => none) l).getD l

/-- `updateSuperuserCredentials(email, password)` as a document transformer:
replace the first `Email = "…"` value (keeping its spacing via `$1`), then the
first `Password = "…"` value.  An unloaded (empty) document is returned
unchanged, as the source bails out before writing. -/
def updateSuperuserCredentials (doc email password : String) : String :=
  if doc = "" then doc
  else
    String.mk
      (replaceFieldKeep "Password".data password.data
        (replaceFieldKeep "Email".data email.data doc.data))

/-- An SMTP update object of `updateAdvancedSettings`: `none` is a field the
source's `!== undefined` guard skips. -/
structure SMTPUpdate where
  Host : Option String := none
  Port : Option Int := none
  Username : Option String := none
  Password : Option String := none
  LocalName : Option String := none
  TLS : Option Bool := none

structure S3Update where
  Bucket : Option String := none
  Region : Option String := none
  Endpoint : Option String := none
  AccessKey : Option String := none
  SecretKey : Option String := none
  ForcePathStyle : Option Bool := none

structure AdvUpdates where
  SMTP : Option SMTPUpdate := none
  S3 : Option S3Update := none

def boolChars (b : Bool) : List Char := if b then "true".data else "false".data

/-- The per-field rewrites applied to the extracted SMTP section content, in
source order. -/
def applySMTPFields (u : SMTPUpdate) (content : List Char) : List Char :=
  let c1 := match u.Host with
    | some v => replaceQuotedLit "Host".data v.data content
    | none => content
  let c2 := match u.Port with
    | some v => replaceNumLit "Port".data (toString v).data c1
    | none => c1
  let c3 := match u.Username with
    | some v => replaceQuotedLit "Username".data v.data c2
    | none => c2
  let c4 := match u.Password with
    | some v => replaceQuotedLit "Password".data v.data c3
    | none => c3
  let c5 := match u.LocalName with
    | some v => replaceQuotedLit "LocalName".data v.data c4
    | none => c4
  match u.TLS with
  | some v => replaceBoolLit "TLS".data (boolChars v) c5
  | none => c5

/-- The per-field rewrites applied to the extracted S3 section content, in
source order. -/
def applyS3Fields (u : S3Update) (content : List Char) : List Char :=
  let c1 := match u.Bucket with
    | some v => replaceQuotedLit "Bucket".data v.data content
    | none => content
  let c2 := match u.Region with
    | some v => replaceQuotedLit "Region".data v.data c1
    | none => c1
  let c3 := match u.Endpoint with
    | some v => replaceQuotedLit "Endpoint".data v.data c2
    | none => c2
  let c4 := match u.AccessKey with
    | some v => replaceQuotedLit "AccessKey".data v.data c3
    | none => c3
  let c5 := match u.SecretKey with
    | some v => replaceQuotedLit "SecretKey".data v.data c4
    | none => c4
  match u.ForcePathStyle with
  | some v => replaceBoolLit "ForcePathStyle".data (boolChars v) c5
  | none => c5

/-- `updateAdvancedSettings(updates)` as a document transformer: for each of
the SMTP and S3 sections present in the update, extract the first matching
section, rewrite the named fields inside its content, and splice the result
back over the first matching section (the source's replacement literally
spells `KEY = {...}`). -/
def updateAdvancedSettings (upd : AdvUpdates) (doc : String) : String :=
  if doc = "" then doc
  else
    let d1 := match upd.SMTP with
      | some u =>
        match findSectionGo "SMTP".data doc.data with
        | some content => replaceSectionLit "SMTP".data (applySMTPFields u content) doc.data
        | none => doc.data
      | none => doc.data
    let d2 := match upd.S3 with
      | some u =>
        match findSectionGo "S3".data d1 with
        | some content => replaceSectionLit "S3".data (applyS3Fields u content) d1
        | none => d1
      | none => d1
    String.mk d2

/-! ### Canonical document shapes

The canonical layout (the shipped `config.lua`) writes every rewritten field
in the single-space form `KEY = value` that the literal replacement strings
reproduce.  The shapes below name those text fragments, so that documents of
the canonical layout are exactly the instances of the templates. -/

/-- `KEY = "v"`. -/
def fieldText (key v : List Char) : List Char :=
  key ++ (' ' :: '=' :: ' ' :: quoteChar :: (v ++ [quoteChar]))

/-- `KEY = d` for a digit run `d`. -/
def numText (key d : List Char) : List Char :=
  key ++ (' ' :: '=' :: ' ' :: d)

/-- `KEY = true` / `KEY = false`. -/
def boolText (key : List Char) (b : Bool) : List Char :=
  key ++ (' ' :: '=' :: ' ' :: boolChars b)

/-- `KEY = {content}`. -/
def sectionText (key content : List Char) : List Char :=
  key ++ (' ' :: '=' :: ' ' :: openBrace :: (content ++ [closeBrace]))

/-- The value a quoted field holds after an optional update. -/
def pickS (o : Option String) (old : List Char) : List Char :=
  match o with
  | some v => v.data
  | none => old

/-- The digits a numeric field holds after an optional update. -/
def pickN (o : Option Int) (old : List Char) : List Char :=
  match o with
  | some v => (toString v).data
  | none => old

/-- The boolean a flag field holds after an optional update. -/
def pickB (o : Option Bool) (old : Bool) : Bool :=
  match o with
  | some v => v
  | none => old

def headNotDigit : List Char → Bool
  | [] => true
  | c :: _ => !c.isDigit

/-- Suffix of a canonical SMTP section body from the `TLS` field on. -/
def smtpT6 (i6 i7 : List Char) (tV : Bool) : List Char :=
  i6 ++ (boolText "TLS".data tV ++ i7)

/-- Suffix from the `LocalName` field on. -/
def smtpT5 (i5 i6 i7 lV : List Char) (tV : Bool) : List Char :=
  i5 ++ (fieldText "LocalName".data lV ++ smtpT6 i6 i7 tV)

/-- Suffix from the `Password` field on. -/
def smtpT4 (i4 i5 i6 i7 pV lV : List Char) (tV : Bool) : List Char :=
  i4 ++ (fieldText "Password".data pV ++ smtpT5 i5 i6 i7 lV tV)

/-- Suffix from the `Username` field on. -/
def smtpT3 (i3 i4 i5 i6 i7 uV pV lV : List Char) (tV : Bool) : List Char :=
  i3 ++ (fieldText "Username".data uV ++ smtpT4 i4 i5 i6 i7 pV lV tV)

/-- Suffix from the `Port` field on. -/
def smtpT2 (i2 i3 i4 i5 i6 i7 dV uV pV lV : List Char) (tV : Bool) : List Char :=
  i2 ++ (numText "Port".data dV ++ smtpT3 i3 i4 i5 i6 i7 uV pV lV tV)

/-- An SMTP section body in the canonical layout: the six rewritable fields
in the shipped order, separated by arbitrary non-field segments
`i1, …, i7` (comments, the non-rewritten `Enabled` flag, whitespace). -/
def smtpCT (i1 i2 i3 i4 i5 i6 i7 hV dV uV pV lV : List Char) (tV : Bool) : List Char :=
  i1 ++ (fieldText "Host".data hV ++ smtpT2 i2 i3 i4 i5 i6 i7 dV uV pV lV tV)

/-- Prefix of a canonical SMTP section body through the `Host` field. -/
def smtpP2 (i1 i2 h1V : List Char) : List Char :=
  i1 ++ (fieldText "Host".data h1V ++ i2)

/-- Prefix through the `Port` field. -/
def smtpP3 (i1 i2 i3 h1V d1V : List Char) : List Char :=
  smtpP2 i1 i2 h1V ++ (numText "Port".data d1V ++ i3)

/-- Prefix through the `Username` field. -/
def smtpP4 (i1 i2 i3 i4 h1V d1V u1V : List Char) : List Char :=
  smtpP3 i1 i2 i3 h1V d1V ++ (fieldText "Username".data u1V ++ i4)

/-- Prefix through the `Password` field. -/
def smtpP5 (i1 i2 i3 i4 i5 h1V d1V u1V p1V : List Char) : List Char :=
  smtpP4 i1 i2 i3 i4 h1V d1V u1V ++ (fieldText "Password".data p1V ++ i5)

/-- Prefix through the `LocalName` field. -/
def smtpP6 (i1 i2 i3 i4 i5 i6 h1V d1V u1V p1V l1V : List Char) : List Char :=
  smtpP5 i1 i2 i3 i4 i5 h1V d1V u1V p1V ++ (fieldText "LocalName".data l1V ++ i6)

/-- Suffix of a canonical S3 section body from the `ForcePathStyle` field on. -/
def s3T6 (j6 j7 : List Char) (fV : Bool) : List Char :=
  j6 ++ (boolText "ForcePathStyle".data fV ++ j7)

/-- Suffix from the `SecretKey` field on. -/
def s3T5 (j5 j6 j7 sV : List Char) (fV : Bool) : List Char :=
  j5 ++ (fieldText "SecretKey".data sV ++ s3T6 j6 j7 fV)

/-- Suffix from the `AccessKey` field on. -/
def s3T4 (j4 j5 j6 j7 aV sV : List Char) (fV : Bool) : List Char :=
  j4 ++ (fieldText "AccessKey".data aV ++ s3T5 j5 j6 j7 sV fV)

/-- Suffix from the `Endpoint` field on. -/
def s3T3 (j3 j4 j5 j6 j7 eV aV sV : List Char) (fV : Bool) : List Char :=
  j3 ++ (fieldText "Endpoint".data eV ++ s3T4 j4 j5 j6 j7 aV sV fV)

/-- Suffix from the `Region` field on. -/
def s3T2 (j2 j3 j4 j5 j6 j7 rV eV aV sV : List Char) (fV : Bool) : List Char :=
  j2 ++ (fieldText "Region".data rV ++ s3T3 j3 j4 j5 j6 j7 eV aV sV fV)

/-- An S3 section body in the canonical layout: the six rewritable fields in
the shipped order, separated by arbitrary non-field segments. -/
def s3CT (j1 j2 j3 j4 j5 j6 j7 bV rV eV aV sV : List Char) (fV : Bool) : List Char :=
  j1 ++ (fieldText "Bucket".data bV ++ s3T2 j2 j3 j4 j5 j6 j7 rV eV aV sV fV)

/-- Prefix of a canonical S3 section body through the `Bucket` field. -/
def s3P2 (j1 j2 b1V : List Char) : List Char :=
  j1 ++ (fieldText "Bucket".data b1V ++ j2)

/-- Prefix through the `Region` field. -/
def s3P3 (j1 j2 j3 b1V r1V : List Char) : List Char :=
  s3P2 j1 j2 b1V ++ (fieldText "Region".data r1V ++ j3)

/-- Prefix through the `Endpoint` field. -/
def s3P4 (j1 j2 j3 j4 b1V r1V e1V : List Char) : List Char :=
  s3P3 j1 j2 j3 b1V r1V ++ (fieldText "Endpoint".data e1V ++ j4)

/-- Prefix through the `AccessKey` field. -/
def s3P5 (j1 j2 j3 j4 j5 b1V r1V e1V a1V : List Char) : List Char :=
  s3P4 j1 j2 j3 j4 b1V r1V e1V ++ (fieldText "AccessKey".data a1V ++ j5)

/-- Prefix through the `SecretKey` field. -/
def s3P6 (j1 j2 j3 j4 j5 j6 b1V r1V e1V a1V s1V : List Char) : List Char :=
  s3P5 j1 j2 j3 j4 j5 b1V r1V e1V a1V ++ (fieldText "SecretKey".data s1V ++ j6)

/-- A canonical superuser document: an `Email` field followed by a `Password`
field, around arbitrary interstitial text `a`, `m`, `b`. -/
def suCT (a m b eV pV : List Char) : List Char :=
  a ++ (fieldText "Email".data eV ++ (m ++ (fieldText "Password".data pV ++ b)))

/-- Prefix of a canonical superuser document through the `Email` field. -/
def suP2 (a m e1V : List Char) : List Char :=
  a ++ (fieldText "Email".data e1V ++ m)

/-- A canonical advanced-settings document: an `SMTP` section with body `SC`
followed by an `S3` section with body `TC`, around arbitrary interstitial
text `P`, `Q`, `R`. -/
def advCT (P Q R SC TC : List Char) : List Char :=
  P ++ (sectionText "SMTP".data SC ++ (Q ++ (sectionText "S3".data TC ++ R)))

/-- Prefix of a canonical advanced-settings document through the `SMTP`
section. -/
def advP2 (P Q SC1 : List Char) : List Char :=
  P ++ (sectionText "SMTP".data SC1 ++ Q)

/-- A present replacement value is free of `$` (in the source the values are
spliced into `String.replace` replacement strings, where `$` sequences are
special; the canonical-layout claims are restricted to `$`-free values). -/
def strNoDollar (o : Option String) : Bool :=
  match o with
  | some v => !v.data.contains dollarChar
  | none => true

/-! # Theorems for the claims -/

/-- C10 (counterexample): `spawnWithTimeout`'s promise CAN reject.  For the
empty command, `child_process.spawn` throws `ERR_INVALID_ARG_VALUE`
synchronously inside the promise executor, rejecting the promise before any
child event can settle it (the never-consulted terminal event here would have
been a clean exit). -/
theorem spawnWithTimeout_rejects_on_empty_command :
    spawnWithTimeout "" ["update"] 30000 "" "" (.closed (some 0))
      = .error "ERR_INVALID_ARG_VALUE" := by
  rfl

/-- C10 (amended): for every command and argument list accepted by spawn's
synchronous argument validation (non-empty command, no null bytes) and every
timeout, the promise settles with a `{code, stdout, stderr}` record and never
rejects — on a `close` event with the child's code and the collected streams,
and on a spawn `error` event with `code = -1` and the error message as
`stderr` instead of propagating the exception. -/
theorem spawnWithTimeout_spec (command : String) (args : List String)
    (timeoutMs : Nat) (collectedOut collectedErr : String) (ev : SpawnEvent)
    (hok : spawnArgsOk command args = true) :
    (∃ r, spawnWithTimeout command args timeoutMs collectedOut collectedErr ev = .ok r)
    ∧ (∀ code, ev = .closed code →
      spawnWithTimeout command args timeoutMs collectedOut collectedErr ev =
        .ok ⟨code, collectedOut, collectedErr⟩)
    ∧ (∀ message, ev = .errored message →
      spawnWithTimeout command args timeoutMs collectedOut collectedErr ev =
        .ok ⟨some (-1), collectedOut, message⟩) := by
  refine ⟨?_, ?_, ?_⟩
  · refine ⟨match ev with
      | .closed code => ⟨code, collectedOut, collectedErr⟩
      | .errored message => ⟨some (-1), collectedOut, message⟩, ?_⟩
    simp [spawnWithTimeout, hok]
  · rintro code rfl
    simp [spawnWithTimeout, hok]
  · rintro message rfl
    simp [spawnWithTimeout, hok]

theorem spawnWithTimeout_spec_witness :
    spawnArgsOk "pocketbase-linux" ["serve"] = true
    ∧ spawnWithTimeout "pocketbase-linux" ["serve"] 5000 "out" "err" (.closed (some 0))
        = .ok ⟨some 0, "out", "err"⟩
    ∧ spawnWithTimeout "pocketbase-linux" ["serve"] 5000 "out" "" (.errored "spawn ENOENT")
        = .ok ⟨some (-1), "out", "spawn ENOENT"⟩ :=
  ⟨by decide,
    (spawnWithTimeout_spec "pocketbase-linux" ["serve"] 5000 "out" "err"
      (.closed (some 0)) (by decide)).2.1 (some 0) rfl,
    (spawnWithTimeout_spec "pocketbase-linux" ["serve"] 5000 "out" ""
      (.errored "spawn ENOENT") (by decide)).2.2 "spawn ENOENT" rfl⟩

/-- C8 (counterexample): the probe's returned promise CAN reject.  For the
input URL `""` the `new URL(url)` call inside the promise executor throws,
and for the parseable non-http(s) URL `ftp://example.com` the code picks the
`http` module and its `get` throws `ERR_INVALID_PROTOCOL` — in both cases the
promise rejects before any GET happens, even though the (never consulted)
response would have been an HTTP 200. -/
theorem checkPublicUrlHealth_rejects_on_bad_url :
    checkPublicUrlHealth "" (.status 200) = .error "synchronous throw in executor"
    ∧ checkPublicUrlHealth "ftp://example.com" (.status 200)
        = .error "synchronous throw in executor" := by
  exact ⟨rfl, rfl⟩

/-- C8 (amended): for every input URL with an explicit `http://` or
`https://` scheme and a well-formed host, optional port and plain path (so
that neither `new URL` nor the chosen module's `get` throws), the probe
performs its single GET against `{url}/api/health` with a 5000 ms timeout and
always resolves — to `true` exactly when the response status is HTTP 200, and
to `false` on any non-200 status, network error or timeout. -/
theorem checkPublicUrlHealth_spec (url : String) (resp : HealthResponse)
    (h : probeUrlOk url = true) :
    healthRequestUrl url = url ++ "/api/health"
    ∧ healthTimeoutMs = 5000
    ∧ (∃ b, checkPublicUrlHealth url resp = .ok b)
    ∧ (checkPublicUrlHealth url resp = .ok true ↔ resp = .status 200) := by
  refine ⟨rfl, rfl, ?_, ?_⟩
  · refine ⟨match resp with
      | .status code => decide (code = 200)
      | .netError => false
      | .timedOut => false, ?_⟩
    simp [checkPublicUrlHealth, h]
  · simp only [checkPublicUrlHealth, h, if_true]
    constructor
    · intro hok
      cases resp with
      | status code =>
        simp only [Except.ok.injEq, decide_eq_true_eq] at hok
        simp [hok]
      | netError => simp at hok
      | timedOut => simp at hok
    · rintro rfl
      simp

theorem checkPublicUrlHealth_spec_witness :
    probeUrlOk "http://203.0.113.7:8090" = true
    ∧ (healthRequestUrl "http://203.0.113.7:8090" = "http://203.0.113.7:8090" ++ "/api/health"
      ∧ healthTimeoutMs = 5000
      ∧ (∃ b, checkPublicUrlHealth "http://203.0.113.7:8090" (.status 200) = .ok b)
      ∧ (checkPublicUrlHealth "http://203.0.113.7:8090" (.status 200) = .ok true
          ↔ HealthResponse.status 200 = .status 200)) :=
  ⟨by decide, checkPublicUrlHealth_spec "http://203.0.113.7:8090" (.status 200) (by decide)⟩

/-- C4: with `ExposeAdmin = false` the resolved bind address is the loopback
literal `127.0.0.1:<port>` and the public URL is the fixed
`http://localhost:<port>`, for every configured `Host` and every outcome of
IP detection (the disabled branch consults neither). -/
theorem resolveBindAndUrl_loopback (c : Config) (ip : Option String)
    (h : c.ExposeAdmin = false) :
    (resolveBindAndUrl c ip).bindAddress = "127.0.0.1:" ++ toString c.Port
    ∧ (resolveBindAndUrl c ip).publicUrl = some ("http://localhost:" ++ toString c.Port) := by
  rw [resolveBindAndUrl, h]
  exact ⟨rfl, rfl⟩

theorem resolveBindAndUrl_loopback_witness :
    ({ defaultConfig with Host := "203.0.113.9" } : Config).ExposeAdmin = false
    ∧ (resolveBindAndUrl { defaultConfig with Host := "203.0.113.9" } (some "198.51.100.2")).bindAddress
        = "127.0.0.1:" ++ toString ({ defaultConfig with Host := "203.0.113.9" } : Config).Port
    ∧ (resolveBindAndUrl { defaultConfig with Host := "203.0.113.9" } (some "198.51.100.2")).publicUrl
        = some ("http://localhost:" ++ toString ({ defaultConfig with Host := "203.0.113.9" } : Config).Port) := by
  refine ⟨by decide, ?_⟩
  exact resolveBindAndUrl_loopback { defaultConfig with Host := "203.0.113.9" }
    (some "198.51.100.2") (by decide)

/-- C5: with `ExposeAdmin = true` and an empty configured `Host`, the public
URL is built from the detected external IP when detection returns an address,
and falls back to the wildcard-bind-derived `http://0.0.0.0:<port>` with a
pushed warning when detection fails (`getPublicIP()` resolves `null`). -/
theorem resolveBindAndUrl_exposed_autodetect (c : Config) (ip : Option String)
    (hE : c.ExposeAdmin = true) (hH : c.Host = "") :
    (∀ s, ip = some s → s ≠ "" →
      (resolveBindAndUrl c ip).publicUrl = some ("http://" ++ s ++ ":" ++ toString c.Port)
      ∧ (resolveBindAndUrl c ip).warnings = [])
    ∧ (ip = none →
      (resolveBindAndUrl c ip).publicUrl = some ("http://0.0.0.0:" ++ toString c.Port)
      ∧ "Could not detect public IP - configure Config.Host manually"
          ∈ (resolveBindAndUrl c ip).warnings) := by
  constructor
  · rintro s rfl hs
    simp [resolveBindAndUrl, hE, hH, hs]
  · rintro rfl
    simp [resolveBindAndUrl, hE, hH]

theorem resolveBindAndUrl_exposed_autodetect_witness :
    ({ defaultConfig with ExposeAdmin := true } : Config).ExposeAdmin = true
    ∧ ({ defaultConfig with ExposeAdmin := true } : Config).Host = ""
    ∧ (resolveBindAndUrl { defaultConfig with ExposeAdmin := true } (some "198.51.100.2")).publicUrl
        = some ("http://" ++ "198.51.100.2" ++ ":" ++ toString ({ defaultConfig with ExposeAdmin := true } : Config).Port)
    ∧ (resolveBindAndUrl { defaultConfig with ExposeAdmin := true } none).publicUrl
        = some ("http://0.0.0.0:" ++ toString ({ defaultConfig with ExposeAdmin := true } : Config).Port)
    ∧ "Could not detect public IP - configure Config.Host manually"
        ∈ (resolveBindAndUrl { defaultConfig with ExposeAdmin := true } none).warnings := by
  refine ⟨by decide, by decide, ?_, ?_, ?_⟩
  · exact ((resolveBindAndUrl_exposed_autodetect { defaultConfig with ExposeAdmin := true }
      (some "198.51.100.2") (by decide) (by decide)).1 "198.51.100.2" rfl (by decide)).1
  · exact ((resolveBindAndUrl_exposed_autodetect { defaultConfig with ExposeAdmin := true }
      none (by decide) (by decide)).2 rfl).1
  · exact ((resolveBindAndUrl_exposed_autodetect { defaultConfig with ExposeAdmin := true }
      none (by decide) (by decide)).2 rfl).2

/-- C3: in the readiness race, an acknowledgment that arrives before the
3000 ms timer fires makes the sequence resume with `clientAuthenticated`
exactly the received boolean; when no acknowledgment arrives within 3000 ms
the timer fires first and the sequence resumes with `clientAuthenticated =
false`; in every case the promise resolves, so the startup sequence continues
rather than aborting. -/
theorem readiness_handshake_outcome (ack : Option HandshakeAck) :
    (∀ a, ack = some a → a.arrivalMs < readinessTimeoutMs →
      (resumeState ack).clientAuthenticated = some a.authenticated)
    ∧ ((∀ a, ack = some a → readinessTimeoutMs ≤ a.arrivalMs) →
      (resumeState ack).clientAuthenticated = some false)
    ∧ (resumeState ack).resumed = true := by
  refine ⟨?_, ?_, ?_⟩
  · rintro a rfl h
    simp [resumeState, hsEventsOf, h, hsStep]
  · intro hlate
    cases ack with
    | none => simp [resumeState, hsEventsOf, hsStep, hsInit]
    | some a =>
      have hge := hlate a rfl
      simp [resumeState, hsEventsOf, Nat.not_lt.mpr hge, hsStep, hsInit]
  · cases ack with
    | none => simp [resumeState, hsEventsOf, hsStep, hsInit]
    | some a =>
      by_cases h : a.arrivalMs < readinessTimeoutMs
      · simp [resumeState, hsEventsOf, h, hsStep]
      · simp [resumeState, hsEventsOf, h, hsStep, hsInit]

/-! ### C2: configuration validation rejections -/

def cfgPortZero : Config := { defaultConfig with Port := 0 }

def cfgPortOver : Config := { defaultConfig with Port := 70000 }

/-- `Backup.KeepLast = -1`; the backup checks of `validateConfig` (source line
453) run only under `Backup.Enabled`, so the backup feature is enabled here. -/
def cfgKeepLastNeg : Config :=
  { defaultConfig with
    Backup := { defaultConfig.Backup with Enabled := true, KeepLast := -1 } }

def cfgSmtpEmptyHost : Config :=
  { defaultConfig with
    Advanced := { defaultConfig.Advanced with
      SMTP := { defaultConfig.Advanced.SMTP with Enabled := true, Host := "" } } }

/-- C2: each of the four configurations — port 0, port 70000,
`Backup.KeepLast = -1` (with backups enabled), and SMTP enabled with an empty
host — fails validation with its own distinct fatal error accumulated into
the error list, and for every outcome of the later effectful steps the start
sequence never reaches the `spawn` call; the four error messages are pairwise
distinct. -/
theorem validateConfig_rejects_four_configs :
    (validateConfig cfgPortZero = false
      ∧ validateConfigErrors cfgPortZero = ["Invalid port: 0 (must be 1-65535)"]
      ∧ ∀ env : StartEnv, startReachesSpawn cfgPortZero env = false)
    ∧ (validateConfig cfgPortOver = false
      ∧ validateConfigErrors cfgPortOver = ["Invalid port: 70000 (must be 1-65535)"]
      ∧ ∀ env : StartEnv, startReachesSpawn cfgPortOver env = false)
    ∧ (validateConfig cfgKeepLastNeg = false
      ∧ validateConfigErrors cfgKeepLastNeg = ["Backup.KeepLast must be >= 0"]
      ∧ ∀ env : StartEnv, startReachesSpawn cfgKeepLastNeg env = false)
    ∧ (validateConfig cfgSmtpEmptyHost = false
      ∧ validateConfigErrors cfgSmtpEmptyHost = ["SMTP enabled but Host is empty"]
      ∧ ∀ env : StartEnv, startReachesSpawn cfgSmtpEmptyHost env = false)
    ∧ ["Invalid port: 0 (must be 1-65535)", "Invalid port: 70000 (must be 1-65535)",
        "Backup.KeepLast must be >= 0", "SMTP enabled but Host is empty"].Pairwise (· ≠ ·) := by
  refine ⟨⟨by decide, by decide, fun env => ?_⟩, ⟨by decide, by decide, fun env => ?_⟩,
    ⟨by decide, by decide, fun env => ?_⟩, ⟨by decide, by decide, fun env => ?_⟩, by decide⟩
  · simp [startReachesSpawn, show validateConfig cfgPortZero = false from by decide]
  · simp [startReachesSpawn, show validateConfig cfgPortOver = false from by decide]
  · simp [startReachesSpawn, show validateConfig cfgKeepLastNeg = false from by decide]
  · simp [startReachesSpawn, show validateConfig cfgSmtpEmptyHost = false from by decide]

/-! ### C7: superuser provisioning idempotence -/

/-- With both persisted credentials non-empty, `createSuperuser` reuses them
exactly and performs none of the generation-path effects, whatever the
subcommand outcome. -/
theorem createSuperuser_reuse_core (cfgEmail cfgPassword : String) (env : SuperuserEnv)
    (hE : cfgEmail ≠ "") (hP : cfgPassword ≠ "") :
    (createSuperuser cfgEmail cfgPassword env).usedEmail = cfgEmail
    ∧ (createSuperuser cfgEmail cfgPassword env).usedPassword = cfgPassword
    ∧ (createSuperuser cfgEmail cfgPassword env).wroteCredentials = false
    ∧ (createSuperuser cfgEmail cfgPassword env).displayEmail = ""
    ∧ (createSuperuser cfgEmail cfgPassword env).displayPassword = ""
    ∧ (createSuperuser cfgEmail cfgPassword env).newConfigEmail = cfgEmail
    ∧ (createSuperuser cfgEmail cfgPassword env).newConfigPassword = cfgPassword := by
  unfold createSuperuser
  simp only [hE, hP, ne_eq, not_false_eq_true, and_self, if_true, not_true_eq_false,
    if_false, true_and]
  split <;> simp

/-- C7: superuser provisioning is idempotent with respect to credentials.
Whenever the persisted email and password are both non-empty, `createSuperuser`
passes exactly those credentials to the `upsert` subcommand, generates
nothing, never calls `updateSuperuserCredentials`, and leaves the one-time
display fields untouched; consequently, after a successful such invocation
the persisted credentials are unchanged and a second invocation again
neither writes back nor re-displays credentials. -/
theorem createSuperuser_idempotent (cfgEmail cfgPassword : String)
    (env env2 : SuperuserEnv) (hE : cfgEmail ≠ "") (hP : cfgPassword ≠ "") :
    (createSuperuser cfgEmail cfgPassword env).usedEmail = cfgEmail
    ∧ (createSuperuser cfgEmail cfgPassword env).usedPassword = cfgPassword
    ∧ (createSuperuser cfgEmail cfgPassword env).wroteCredentials = false
    ∧ (createSuperuser cfgEmail cfgPassword env).displayEmail = ""
    ∧ (createSuperuser cfgEmail cfgPassword env).displayPassword = ""
    ∧ (createSuperuser cfgEmail cfgPassword env).newConfigEmail = cfgEmail
    ∧ (createSuperuser cfgEmail cfgPassword env).newConfigPassword = cfgPassword
    ∧ ((createSuperuser cfgEmail cfgPassword env).success = true →
        (createSuperuser (createSuperuser cfgEmail cfgPassword env).newConfigEmail
          (createSuperuser cfgEmail cfgPassword env).newConfigPassword env2).wroteCredentials = false
        ∧ (createSuperuser (createSuperuser cfgEmail cfgPassword env).newConfigEmail
            (createSuperuser cfgEmail cfgPassword env).newConfigPassword env2).displayEmail = ""
        ∧ (createSuperuser (createSuperuser cfgEmail cfgPassword env).newConfigEmail
            (createSuperuser cfgEmail cfgPassword env).newConfigPassword env2).displayPassword = "") := by
  obtain ⟨h1, h2, h3, h4, h5, h6, h7⟩ := createSuperuser_reuse_core cfgEmail cfgPassword env hE hP
  refine ⟨h1, h2, h3, h4, h5, h6, h7, fun _ => ?_⟩
  rw [h6, h7]
  obtain ⟨_, _, g3, g4, g5, _, _⟩ := createSuperuser_reuse_core cfgEmail cfgPassword env2 hE hP
  exact ⟨g3, g4, g5⟩

/-- A concrete effect environment: no detected IP, a successful `upsert`
(exit code 0), a config write that would succeed. -/
def suEnvOkC : SuperuserEnv :=
  { publicIP := none, generatedPassword := "generatedpw"
    upsert := fun _ _ => ⟨0, "", ""⟩, writeOk := true }

theorem createSuperuser_idempotent_witness :
    (createSuperuser "admin@example.com" "persistedpw" suEnvOkC).usedEmail = "admin@example.com"
    ∧ (createSuperuser "admin@example.com" "persistedpw" suEnvOkC).usedPassword = "persistedpw"
    ∧ (createSuperuser "admin@example.com" "persistedpw" suEnvOkC).wroteCredentials = false
    ∧ (createSuperuser "admin@example.com" "persistedpw" suEnvOkC).displayEmail = ""
    ∧ (createSuperuser "admin@example.com" "persistedpw" suEnvOkC).displayPassword = ""
    ∧ (createSuperuser "admin@example.com" "persistedpw" suEnvOkC).newConfigEmail = "admin@example.com"
    ∧ (createSuperuser "admin@example.com" "persistedpw" suEnvOkC).newConfigPassword = "persistedpw"
    ∧ ((createSuperuser "admin@example.com" "persistedpw" suEnvOkC).success = true →
        (createSuperuser (createSuperuser "admin@example.com" "persistedpw" suEnvOkC).newConfigEmail
          (createSuperuser "admin@example.com" "persistedpw" suEnvOkC).newConfigPassword suEnvOkC).wroteCredentials = false
        ∧ (createSuperuser (createSuperuser "admin@example.com" "persistedpw" suEnvOkC).newConfigEmail
            (createSuperuser "admin@example.com" "persistedpw" suEnvOkC).newConfigPassword suEnvOkC).displayEmail = ""
        ∧ (createSuperuser (createSuperuser "admin@example.com" "persistedpw" suEnvOkC).newConfigEmail
            (createSuperuser "admin@example.com" "persistedpw" suEnvOkC).newConfigPassword suEnvOkC).displayPassword = "") :=
  createSuperuser_idempotent "admin@example.com" "persistedpw" suEnvOkC suEnvOkC
    (by decide) (by decide)

/-! ### C6: retry with exponential backoff -/

/-- An operation that throws on its first three invocations and succeeds on
the fourth and later calls. -/
def failThenOk : Nat → Except String Nat := fun k =>
  if k ≤ 3 then .error ("fail " ++ toString k) else .ok k

/-- Loop invariant of `retryGoF`: at most `remaining` invocations happen, and
the `i`-th delay slept is the backoff of attempt `attempt + i`. -/
theorem retryGoF_spec (fn : Nat → Except ε α) (b m : Nat) :
    ∀ (remaining attempt : Nat) (lastE : Option ε),
      (retryGoF fn b m remaining attempt lastE).2.2 ≤ remaining
      ∧ ∀ (i : Nat) (h : i < (retryGoF fn b m remaining attempt lastE).2.1.length),
          (retryGoF fn b m remaining attempt lastE).2.1.get ⟨i, h⟩
            = backoffDelay b m (attempt + i)
  | 0, attempt, lastE => by simp [retryGoF]
  | remaining + 1, attempt, lastE => by
    cases hf : fn attempt with
    | ok a => simp [retryGoF, hf]
    | error e =>
      by_cases hr : remaining = 0
      · subst hr
        simp [retryGoF, hf]
      · have ih := retryGoF_spec fn b m remaining (attempt + 1) (some e)
        have hstep : retryGoF fn b m (remaining + 1) attempt lastE
            = ((retryGoF fn b m remaining (attempt + 1) (some e)).1,
               backoffDelay b m attempt :: (retryGoF fn b m remaining (attempt + 1) (some e)).2.1,
               (retryGoF fn b m remaining (attempt + 1) (some e)).2.2 + 1) := by
          simp [retryGoF, hf, hr]
        rw [hstep]
        refine ⟨Nat.succ_le_succ ih.1, fun i h => ?_⟩
        cases i with
        | zero => simp
        | succ j =>
          have hj : j < (retryGoF fn b m remaining (attempt + 1) (some e)).2.1.length := by
            simpa using Nat.lt_of_succ_lt_succ (by simpa using h)
          have hrec := ih.2 j hj
          have harg : attempt + 1 + j = attempt + (j + 1) := by omega
          rw [List.get_cons_succ]
          exact harg ▸ hrec

/-- C6: with `(maxAttempts, baseDelay, maxDelay) = (10, 100, 2000)`, an
operation failing on its first three invocations and succeeding on the fourth
makes `retryWithBackoff` return the fourth invocation's result after exactly 4
invocations, sleeping exactly 100 ms, 200 ms and 400 ms between attempts; and
for every operation, the delay slept after attempt `k = i + 1` is
`min(100 · 2^(k-1), 2000)` ms and the operation is invoked at most 10 times
before the final outcome (the last error, rethrown) is produced. -/
theorem retryWithBackoff_spec :
    retryWithBackoff failThenOk 10 100 2000 = (.ok 4, [100, 200, 400], 4)
    ∧ ∀ (ε α : Type) (fn : Nat → Except ε α),
        (retryWithBackoff fn 10 100 2000).2.2 ≤ 10
        ∧ ∀ (i : Nat) (h : i < (retryWithBackoff fn 10 100 2000).2.1.length),
            (retryWithBackoff fn 10 100 2000).2.1.get ⟨i, h⟩ = min (100 * 2 ^ i) 2000 := by
  refine ⟨rfl, fun ε α fn => ?_⟩
  have h := retryGoF_spec fn 100 2000 10 1 none
  refine ⟨h.1, fun i hi => ?_⟩
  have hget := h.2 i hi
  have harg : 1 + i - 1 = i := by omega
  rw [backoffDelay, harg] at hget
  exact hget

/-! ### C1: backup rotation -/

/-- Core of the rotation property, over the sorted-then-drop form: dropping
the first `N` of the descending sort of a duplicate-free-by-creation-time
list removes `length − N` records, all members; every record not dropped is
strictly newer than every dropped one; and exactly `N` records survive. -/
theorem drop_sorted_spec (auto : List BackupRecord) (N : Nat)
    (hDist : auto.Pairwise fun a b => a.created ≠ b.created)
    (hNlt : N < auto.length) :
    ((sortByCreatedDesc auto).drop N).length + N = auto.length
    ∧ (∀ b ∈ (sortByCreatedDesc auto).drop N, b ∈ auto)
    ∧ (∀ a ∈ auto, a ∉ (sortByCreatedDesc auto).drop N →
        ∀ d ∈ (sortByCreatedDesc auto).drop N, d.created < a.created)
    ∧ (auto.filter fun a => decide (a ∉ (sortByCreatedDesc auto).drop N)).length = N := by
  have hperm : (sortByCreatedDesc auto).Perm auto := List.perm_insertionSort descRel auto
  have hsorted : (sortByCreatedDesc auto).Pairwise descRel :=
    List.sorted_insertionSort descRel auto
  have hne : (sortByCreatedDesc auto).Pairwise (fun a b => a.created ≠ b.created) :=
    (List.Perm.pairwise_iff (fun h => Ne.symm h) hperm).mpr hDist
  have hstrict : (sortByCreatedDesc auto).Pairwise (fun a b => b.created < a.created) :=
    (hsorted.and hne).imp (fun h => lt_of_le_of_ne h.1 (Ne.symm h.2))
  have hNs : N ≤ (sortByCreatedDesc auto).length := by
    rw [hperm.length_eq]
    omega
  have htd := List.take_append_drop N (sortByCreatedDesc auto)
  have hsplit : ∀ a ∈ (sortByCreatedDesc auto).take N,
      ∀ d ∈ (sortByCreatedDesc auto).drop N, d.created < a.created := by
    have h2 := hstrict
    rw [← htd] at h2
    exact (List.pairwise_append.mp h2).2.2
  refine ⟨?_, ?_, ?_, ?_⟩
  · rw [List.length_drop, hperm.length_eq]
    omega
  · exact fun b hb => hperm.subset (List.drop_subset N _ hb)
  · intro a ha hnd d hd
    have has : a ∈ sortByCreatedDesc auto := hperm.mem_iff.mpr ha
    rw [← htd] at has
    rcases List.mem_append.mp has with h1 | h2
    · exact hsplit a h1 d hd
    · exact absurd h2 hnd
  · have hpf := (hperm.filter (fun a => decide (a ∉ (sortByCreatedDesc auto).drop N))).symm
    rw [hpf.length_eq]
    have hfs : (sortByCreatedDesc auto).filter
        (fun a => decide (a ∉ (sortByCreatedDesc auto).drop N))
        = ((sortByCreatedDesc auto).take N ++ (sortByCreatedDesc auto).drop N).filter
          (fun a => decide (a ∉ (sortByCreatedDesc auto).drop N)) := by
      rw [htd]
    rw [hfs, List.filter_append]
    have htake : ((sortByCreatedDesc auto).take N).filter
        (fun a => decide (a ∉ (sortByCreatedDesc auto).drop N))
        = (sortByCreatedDesc auto).take N := by
      refine List.filter_eq_self.mpr (fun a ha => decide_eq_true ?_)
      intro hin
      exact absurd (hsplit a ha a hin) (lt_irrefl _)
    have hdrop : ((sortByCreatedDesc auto).drop N).filter
        (fun a => decide (a ∉ (sortByCreatedDesc auto).drop N)) = [] := by
      refine List.filter_eq_nil_iff.mpr (fun a ha h => ?_)
      exact absurd ha (of_decide_eq_true h)
    rw [htake, hdrop, List.append_nil, List.length_take]
    exact min_eq_left hNs

/-- C1: with backups enabled and `KeepLast = N > 0`, whenever the listing
holds `M > N` auto-prefixed records (their creation times pairwise distinct —
"the N most recently created" is ill-defined under ties), rotation deletes
exactly `M − N` records; each deleted record carries the automatic-backup
prefix and is one of the listed records, so no non-auto-prefixed record is
ever deleted; every retained auto-prefixed record was created strictly later
than every deleted one (the deleted ones are exactly the `M − N` oldest); and
exactly `N` auto-prefixed records are retained. -/
theorem manageBackupRotation_spec (cfg : BackupConfig) (backups : List BackupRecord)
    (hEn : cfg.Enabled = true) (hKeep : 0 < cfg.KeepLast)
    (hDist : (backups.filter fun b => strStarts b.key cfg.BackupTag).Pairwise
      (fun a b => a.created ≠ b.created))
    (hM : cfg.KeepLast < ((backups.filter fun b => strStarts b.key cfg.BackupTag).length : Int)) :
    (manageBackupRotation cfg backups).length + cfg.KeepLast.toNat
        = (backups.filter fun b => strStarts b.key cfg.BackupTag).length
    ∧ (∀ b ∈ manageBackupRotation cfg backups, strStarts b.key cfg.BackupTag = true)
    ∧ (∀ b ∈ manageBackupRotation cfg backups,
        b ∈ backups.filter fun b => strStarts b.key cfg.BackupTag)
    ∧ (∀ a ∈ backups.filter (fun b => strStarts b.key cfg.BackupTag),
        a ∉ manageBackupRotation cfg backups →
        ∀ d ∈ manageBackupRotation cfg backups, d.created < a.created)
    ∧ ((backups.filter fun b => strStarts b.key cfg.BackupTag).filter
        (fun a => decide (a ∉ manageBackupRotation cfg backups))).length
        = cfg.KeepLast.toNat := by
  have hlenfil : (backups.filter fun b => strStarts b.key cfg.BackupTag).length
      ≤ backups.length := List.length_filter_le _ _
  have hcond1 : ¬(¬cfg.Enabled = true ∨ cfg.KeepLast ≤ 0) := by
    simp [hEn]
    omega
  have hcond2 : ¬((backups.length : Int) ≤ cfg.KeepLast) := by
    have hc : ((backups.filter fun b => strStarts b.key cfg.BackupTag).length : Int)
        ≤ (backups.length : Int) := by exact_mod_cast hlenfil
    omega
  have hdel : manageBackupRotation cfg backups
      = (sortByCreatedDesc (backups.filter fun b => strStarts b.key cfg.BackupTag)).drop
          cfg.KeepLast.toNat := by
    rw [manageBackupRotation, if_neg hcond1, if_neg hcond2]
  have hNlt : cfg.KeepLast.toNat
      < (backups.filter fun b => strStarts b.key cfg.BackupTag).length := by omega
  obtain ⟨h1, h2, h3, h4⟩ := drop_sorted_spec _ _ hDist hNlt
  refine ⟨?_, ?_, ?_, ?_, ?_⟩
  · rw [hdel]
    exact h1
  · intro b hb
    rw [hdel] at hb
    exact (List.mem_filter.mp (h2 b hb)).2
  · intro b hb
    rw [hdel] at hb
    exact h2 b hb
  · intro a ha hnd d hd
    rw [hdel] at hnd hd
    exact h3 a ha hnd d hd
  · simp only [hdel]
    exact h4

/-- Concrete rotation run: `KeepLast = 2`, four auto-prefixed records among
five; the two oldest auto records are deleted, the foreign record survives. -/
def rotCfgC : BackupConfig :=
  { Enabled := true, OnStartup := true, Schedule := 0, KeepLast := 2, BackupTag := "auto_" }

def rotBackupsC : List BackupRecord :=
  [⟨"auto_a", 10⟩, ⟨"manual_x", 99⟩, ⟨"auto_b", 30⟩, ⟨"auto_c", 20⟩, ⟨"auto_d", 40⟩]

theorem manageBackupRotation_spec_witness :
    (rotCfgC.Enabled = true ∧ 0 < rotCfgC.KeepLast
      ∧ (rotBackupsC.filter fun b => strStarts b.key rotCfgC.BackupTag).Pairwise
          (fun a b => a.created ≠ b.created)
      ∧ rotCfgC.KeepLast
          < ((rotBackupsC.filter fun b => strStarts b.key rotCfgC.BackupTag).length : Int))
    ∧ ((manageBackupRotation rotCfgC rotBackupsC).length + rotCfgC.KeepLast.toNat
        = (rotBackupsC.filter fun b => strStarts b.key rotCfgC.BackupTag).length
      ∧ (∀ b ∈ manageBackupRotation rotCfgC rotBackupsC, strStarts b.key rotCfgC.BackupTag = true)
      ∧ (∀ b ∈ manageBackupRotation rotCfgC rotBackupsC,
          b ∈ rotBackupsC.filter fun b => strStarts b.key rotCfgC.BackupTag)
      ∧ (∀ a ∈ rotBackupsC.filter (fun b => strStarts b.key rotCfgC.BackupTag),
          a ∉ manageBackupRotation rotCfgC rotBackupsC →
          ∀ d ∈ manageBackupRotation rotCfgC rotBackupsC, d.created < a.created)
      ∧ ((rotBackupsC.filter fun b => strStarts b.key rotCfgC.BackupTag).filter
          (fun a => decide (a ∉ manageBackupRotation rotCfgC rotBackupsC))).length
          = rotCfgC.KeepLast.toNat) :=
  ⟨⟨by decide, by decide, by decide, by decide⟩,
    manageBackupRotation_spec rotCfgC rotBackupsC (by decide) (by decide) (by decide) (by decide)⟩

/-! ### C9: frame preservation of the configuration rewrites -/

/-- A well-formed configuration document (Lua table fields and blocks may
come in any order) in which the `Config.Advanced` block with its SMTP section
precedes the `Config.Superuser` block.  The first `Password\s*=\s*"[^"]*"`
occurrence in the document is then the SMTP password. -/
def docBadC : String :=
  "Config.Advanced = \x7b\n  SMTP = \x7b\n    Host = \"smtp.example.com\",\n    Password = \"smtppw\",\n  \x7d,\n\x7d\nConfig.Superuser = \x7b\n  Email = \"a@b.c\",\n  Password = \"oldpw\",\n\x7d\n"

/-- C9 (counterexample): on `docBadC`, `updateSuperuserCredentials` rewrites
the SMTP section's `Password` value (the first match in the document) and
leaves the superuser password untouched — so the rewrite is not
frame-preserving over every well-formed configuration document, and the
result differs from the claim's expectation (only the superuser values
changed). -/
theorem updateSuperuserCredentials_not_frame_preserving :
    updateSuperuserCredentials docBadC "new@d.e" "newpw"
      = "Config.Advanced = \x7b\n  SMTP = \x7b\n    Host = \"smtp.example.com\",\n    Password = \"newpw\",\n  \x7d,\n\x7d\nConfig.Superuser = \x7b\n  Email = \"new@d.e\",\n  Password = \"oldpw\",\n\x7d\n"
    ∧ updateSuperuserCredentials docBadC "new@d.e" "newpw"
      ≠ "Config.Advanced = \x7b\n  SMTP = \x7b\n    Host = \"smtp.example.com\",\n    Password = \"smtppw\",\n  \x7d,\n\x7d\nConfig.Superuser = \x7b\n  Email = \"new@d.e\",\n  Password = \"newpw\",\n\x7d\n" := by
  constructor
  · rfl
  · decide

/-! #### First-occurrence matching lemmas

The canonical-layout theorems below rest on: a literal matches its own
prefix, the value scanners stop at the first closing quote/brace, the digit
scanner stops at the first non-digit, and a first-occurrence replace over
`A ++ B` that matches nowhere inside `A` is the replace of `B` behind an
untouched `A`. -/

theorem matchLit_self : ∀ (k l : List Char), matchLit k (k ++ l) = some l
  | [], _ => rfl
  | c :: k, l => by simp [matchLit, matchLit_self k l]

theorem scanToQuote_append (v rest : List Char) (hv : quoteChar ∉ v) :
    scanToQuote (v ++ (quoteChar :: rest)) = some (v, rest) := by
  induction v with
  | nil => simp [scanToQuote]
  | cons c cs ih =>
    have h0 : c ≠ quoteChar := fun h => hv (by simp [h])
    have h1 : (c == quoteChar) = false := by simpa using h0
    have h2 : quoteChar ∉ cs := fun h => hv (List.mem_cons_of_mem c h)
    simp [scanToQuote, h1, ih h2]

theorem scanToBrace_append (v rest : List Char) (hv : closeBrace ∉ v) :
    scanToBrace (v ++ (closeBrace :: rest)) = some (v, rest) := by
  induction v with
  | nil => simp [scanToBrace]
  | cons c cs ih =>
    have h0 : c ≠ closeBrace := fun h => hv (by simp [h])
    have h1 : (c == closeBrace) = false := by simpa using h0
    have h2 : closeBrace ∉ cs := fun h => hv (List.mem_cons_of_mem c h)
    simp [scanToBrace, h1, ih h2]

theorem isWsChar_eq_false_of_isDigit {c : Char} (h : c.isDigit = true) :
    isWsChar c = false := by
  have h1 : c ≠ ' ' := fun hc => absurd h (by subst hc; decide)
  have h2 : c ≠ '\t' := fun hc => absurd h (by subst hc; decide)
  have h3 : c ≠ '\n' := fun hc => absurd h (by subst hc; decide)
  have h4 : c ≠ '\r' := fun hc => absurd h (by subst hc; decide)
  simp [isWsChar, h1, h2, h3, h4]

theorem takeDigits_append (d rest : List Char) (hd : ∀ c ∈ d, c.isDigit = true)
    (hr : headNotDigit rest = true) :
    takeDigits (d ++ rest) = (d, rest) := by
  induction d with
  | nil =>
    cases rest with
    | nil => rfl
    | cons c cs =>
      have h1 : c.isDigit = false := by simpa [headNotDigit] using hr
      simp [takeDigits, h1]
  | cons c cs ih =>
    have h1 : c.isDigit = true := hd c (by simp)
    have h2 : ∀ x ∈ cs, x.isDigit = true := fun x hx => hd x (by simp [hx])
    simp [takeDigits, h1, ih h2]

theorem matchFieldAt_head (key v rest : List Char) (hv : quoteChar ∉ v) :
    matchFieldAt key (fieldText key v ++ rest)
      = some (key ++ [' '] ++ '=' :: [' '], v, rest) := by
  have h1 : fieldText key v ++ rest
      = key ++ (' ' :: '=' :: ' ' :: quoteChar :: (v ++ (quoteChar :: rest))) := by
    simp [fieldText]
  have hws1 : isWsChar ' ' = true := by decide
  have hws2 : isWsChar '=' = false := by decide
  have hws3 : isWsChar quoteChar = false := by decide
  rw [h1]
  simp only [matchFieldAt]
  rw [matchLit_self]
  simp [splitWs, hws1, hws2, hws3, matchLit, scanToQuote_append v rest hv]

theorem matchNumFieldAt_head (key d rest : List Char) (hd : allDigits d = true)
    (hr : headNotDigit rest = true) :
    matchNumFieldAt key (numText key d ++ rest) = some rest := by
  rw [allDigits, Bool.and_eq_true] at hd
  obtain ⟨hd1, hd2⟩ := hd
  have hde : d.isEmpty = false := by simpa using hd1
  have hdall : ∀ c ∈ d, c.isDigit = true := by
    intro c hc
    simpa using List.all_eq_true.mp hd2 c hc
  have hsws : splitWs (d ++ rest) = ([], d ++ rest) := by
    cases d with
    | nil => simp at hde
    | cons c cs =>
      have hnw := isWsChar_eq_false_of_isDigit (hdall c (by simp))
      simp [splitWs, hnw]
  have h1 : numText key d ++ rest = key ++ (' ' :: '=' :: ' ' :: (d ++ rest)) := by
    simp [numText]
  have hws1 : isWsChar ' ' = true := by decide
  have hws2 : isWsChar '=' = false := by decide
  rw [h1]
  simp only [matchNumFieldAt]
  rw [matchLit_self]
  simp [splitWs, hws1, hws2, matchLit, hsws, takeDigits_append d rest hdall hr, hde]

theorem matchBoolFieldAt_head (key : List Char) (b : Bool) (rest : List Char) :
    matchBoolFieldAt key (boolText key b ++ rest) = some rest := by
  have h1 : boolText key b ++ rest = key ++ (' ' :: '=' :: ' ' :: (boolChars b ++ rest)) := by
    simp [boolText]
  have hws1 : isWsChar ' ' = true := by decide
  have hws2 : isWsChar '=' = false := by decide
  have hws3 : isWsChar 't' = false := by decide
  have hws4 : isWsChar 'f' = false := by decide
  rw [h1]
  simp only [matchBoolFieldAt]
  rw [matchLit_self]
  cases b <;> simp [splitWs, hws1, hws2, hws3, hws4, matchLit, boolChars]

theorem matchSectionAt_head (key content rest : List Char) (hc : closeBrace ∉ content)
    (hne : content ≠ []) :
    matchSectionAt key (sectionText key content ++ rest) = some (content, rest) := by
  have h1 : sectionText key content ++ rest
      = key ++ (' ' :: '=' :: ' ' :: openBrace :: (content ++ (closeBrace :: rest))) := by
    simp [sectionText]
  have hie : content.isEmpty = false := by
    cases content with
    | nil => exact absurd rfl hne
    | cons c cs => rfl
  have hws1 : isWsChar ' ' = true := by decide
  have hws2 : isWsChar '=' = false := by decide
  have hws3 : isWsChar openBrace = false := by decide
  rw [h1]
  simp only [matchSectionAt]
  rw [matchLit_self]
  simp [splitWs, hws1, hws2, hws3, matchLit, scanToBrace_append content rest hc, hie]

theorem replaceFirstGo_head (attempt : List Char → Option (List Char × List Char))
    (l rep rest : List Char) (h : attempt l = some (rep, rest)) :
    replaceFirstGo attempt l = some (rep ++ rest) := by
  cases l <;> simp [replaceFirstGo, h]

theorem replaceFirstGo_skip (attempt : List Char → Option (List Char × List Char)) :
    ∀ (A B out : List Char),
      (∀ i, i < A.length → attempt (A.drop i ++ B) = none) →
      replaceFirstGo attempt B = some out →
      replaceFirstGo attempt (A ++ B) = some (A ++ out)
  | [], _, _, _, hB => by simpa using hB
  | c :: A, B, out, hA, hB => by
    have h0 : attempt (c :: (A ++ B)) = none := by
      have h := hA 0 (by simp)
      simpa using h
    have ih := replaceFirstGo_skip attempt A B out
      (fun i hi => by
        have h := hA (i + 1) (by simpa using Nat.succ_lt_succ hi)
        simpa using h)
      hB
    simp [replaceFirstGo, h0, ih]

theorem replaceFirstGo_split (attempt : List Char → Option (List Char × List Char))
    (A B rep rest : List Char)
    (hskip : ∀ i, i < A.length → attempt (A.drop i ++ B) = none)
    (hhead : attempt B = some (rep, rest)) :
    replaceFirstGo attempt (A ++ B) = some (A ++ (rep ++ rest)) :=
  replaceFirstGo_skip attempt A B (rep ++ rest) hskip
    (replaceFirstGo_head attempt B rep rest hhead)

theorem findSectionGo_head (key l content rest : List Char)
    (h : matchSectionAt key l = some (content, rest)) :
    findSectionGo key l = some content := by
  cases l <;> simp [findSectionGo, h]

theorem findSectionGo_skip (key : List Char) :
    ∀ (A B content : List Char),
      (∀ i, i < A.length → matchSectionAt key (A.drop i ++ B) = none) →
      findSectionGo key B = some content →
      findSectionGo key (A ++ B) = some content
  | [], _, _, _, hB => by simpa using hB
  | c :: A, B, content, hA, hB => by
    have h0 : matchSectionAt key (c :: (A ++ B)) = none := by
      have h := hA 0 (by simp)
      simpa using h
    have ih := findSectionGo_skip key A B content
      (fun i hi => by
        have h := hA (i + 1) (by simpa using Nat.succ_lt_succ hi)
        simpa using h)
      hB
    simp [findSectionGo, h0, ih]

theorem ne_nil_of_right_ne_nil (A : List Char) {B : List Char} (h : B ≠ []) :
    A ++ B ≠ [] := by
  intro hc
  exact h (List.append_eq_nil.mp hc).2

theorem ne_nil_of_left_ne_nil {A : List Char} (B : List Char) (h : A ≠ []) :
    A ++ B ≠ [] := by
  intro hc
  exact h (List.append_eq_nil.mp hc).1

theorem fieldText_ne_nil (key v : List Char) : fieldText key v ≠ [] :=
  ne_nil_of_right_ne_nil key (by simp)

theorem mk_ne_empty {l : List Char} (h : l ≠ []) : String.mk l ≠ "" := by
  intro hc
  exact h (congrArg String.data hc)

/-! #### Canonical-shape behaviour of the five replace operations

Each lemma says: on `A ++ (field ++ B)` where the pattern matches nowhere
inside `A` (hypothesis `hA`, ranging over every position of `A`) and matches
the canonical field at the split point, the first-occurrence replace rewrites
exactly the field's value and preserves every other character. -/

theorem replaceFieldKeep_split (key nv A v B : List Char)
    (hA : ∀ i, i < A.length → matchFieldAt key (A.drop i ++ (fieldText key v ++ B)) = none)
    (hv : quoteChar ∉ v) :
    replaceFieldKeep key nv (A ++ (fieldText key v ++ B)) = A ++ (fieldText key nv ++ B) := by
  show (replaceFirstGo
      (fun s =>
        match matchFieldAt key s with
        | some (g1, _, rest) => some (g1 ++ quoteChar :: (nv ++ [quoteChar]), rest)
        | none => none) (A ++ (fieldText key v ++ B))).getD (A ++ (fieldText key v ++ B))
    = A ++ (fieldText key nv ++ B)
  rw [replaceFirstGo_split _ A (fieldText key v ++ B)
    ((key ++ [' '] ++ '=' :: [' ']) ++ quoteChar :: (nv ++ [quoteChar])) B
    (fun i hi => by rw [hA i hi])
    (by rw [matchFieldAt_head key v B hv])]
  simp [Option.getD_some, fieldText, List.append_assoc]

theorem replaceQuotedLit_split (key nv A v B : List Char)
    (hA : ∀ i, i < A.length → matchFieldAt key (A.drop i ++ (fieldText key v ++ B)) = none)
    (hv : quoteChar ∉ v) :
    replaceQuotedLit key nv (A ++ (fieldText key v ++ B)) = A ++ (fieldText key nv ++ B) := by
  show (replaceFirstGo
      (fun s =>
        match matchFieldAt key s with
        | some (_, _, rest) =>
          some (key ++ ' ' :: '=' :: ' ' :: quoteChar :: (nv ++ [quoteChar]), rest)
        | none => none) (A ++ (fieldText key v ++ B))).getD (A ++ (fieldText key v ++ B))
    = A ++ (fieldText key nv ++ B)
  rw [replaceFirstGo_split _ A (fieldText key v ++ B) (fieldText key nv) B
    (fun i hi => by rw [hA i hi])
    (by rw [matchFieldAt_head key v B hv]; rfl)]
  rfl

theorem replaceNumLit_split (key nd A d B : List Char)
    (hA : ∀ i, i < A.length → matchNumFieldAt key (A.drop i ++ (numText key d ++ B)) = none)
    (hd : allDigits d = true) (hr : headNotDigit B = true) :
    replaceNumLit key nd (A ++ (numText key d ++ B)) = A ++ (numText key nd ++ B) := by
  show (replaceFirstGo
      (fun s =>
        match matchNumFieldAt key s with
        | some rest => some (key ++ ' ' :: '=' :: ' ' :: nd, rest)
        | none => none) (A ++ (numText key d ++ B))).getD (A ++ (numText key d ++ B))
    = A ++ (numText key nd ++ B)
  rw [replaceFirstGo_split _ A (numText key d ++ B) (numText key nd) B
    (fun i hi => by rw [hA i hi])
    (by rw [matchNumFieldAt_head key d B hd hr]; rfl)]
  rfl

theorem replaceBoolLit_split (key : List Char) (nb : Bool) (A : List Char) (b : Bool)
    (B : List Char)
    (hA : ∀ i, i < A.length → matchBoolFieldAt key (A.drop i ++ (boolText key b ++ B)) = none) :
    replaceBoolLit key (boolChars nb) (A ++ (boolText key b ++ B))
      = A ++ (boolText key nb ++ B) := by
  show (replaceFirstGo
      (fun s =>
        match matchBoolFieldAt key s with
        | some rest => some (key ++ ' ' :: '=' :: ' ' :: boolChars nb, rest)
        | none => none) (A ++ (boolText key b ++ B))).getD (A ++ (boolText key b ++ B))
    = A ++ (boolText key nb ++ B)
  rw [replaceFirstGo_split _ A (boolText key b ++ B) (boolText key nb) B
    (fun i hi => by rw [hA i hi])
    (by rw [matchBoolFieldAt_head key b B]; rfl)]
  rfl

theorem replaceSectionLit_split (key newContent A content B : List Char)
    (hA : ∀ i, i < A.length →
      matchSectionAt key (A.drop i ++ (sectionText key content ++ B)) = none)
    (hc : closeBrace ∉ content) (hne : content ≠ []) :
    replaceSectionLit key newContent (A ++ (sectionText key content ++ B))
      = A ++ (sectionText key newContent ++ B) := by
  show (replaceFirstGo
      (fun s =>
        match matchSectionAt key s with
        | some (_, rest) =>
          some (key ++ ' ' :: '=' :: ' ' :: openBrace :: (newContent ++ [closeBrace]), rest)
        | none => none) (A ++ (sectionText key content ++ B))).getD
        (A ++ (sectionText key content ++ B))
    = A ++ (sectionText key newContent ++ B)
  rw [replaceFirstGo_split _ A (sectionText key content ++ B) (sectionText key newContent) B
    (fun i hi => by rw [hA i hi])
    (by rw [matchSectionAt_head key content B hc hne]; rfl)]
  rfl

theorem findSectionGo_split (key A content B : List Char)
    (hA : ∀ i, i < A.length →
      matchSectionAt key (A.drop i ++ (sectionText key content ++ B)) = none)
    (hc : closeBrace ∉ content) (hne : content ≠ []) :
    findSectionGo key (A ++ (sectionText key content ++ B)) = some content :=
  findSectionGo_skip key A (sectionText key content ++ B) content hA
    (findSectionGo_head key (sectionText key content ++ B) content B
      (matchSectionAt_head key content B hc hne))

theorem pickS_someEq (v : String) (old : List Char) : pickS (some v) old = v.data := rfl

/-- For every update `u` (any subset of the six SMTP fields present) and
every canonical SMTP section body, `applySMTPFields` rewrites exactly the
values of the fields named in `u` — each first-match hypothesis `h1`…`h6`
says the corresponding pattern matches nowhere before its intended field,
also not inside the values inserted by the earlier rewrites. -/
theorem applySMTPFields_canonical (u : SMTPUpdate)
    (i1 i2 i3 i4 i5 i6 i7 hV dV uV pV lV : List Char) (tV : Bool)
    (hqH : quoteChar ∉ hV) (hqU : quoteChar ∉ uV) (hqP : quoteChar ∉ pV)
    (hqL : quoteChar ∉ lV)
    (hdD : allDigits dV = true)
    (hr3 : headNotDigit (smtpT3 i3 i4 i5 i6 i7 uV pV lV tV) = true)
    (h1 : ∀ i, i < i1.length → matchFieldAt "Host".data
      (i1.drop i ++ (fieldText "Host".data hV ++ smtpT2 i2 i3 i4 i5 i6 i7 dV uV pV lV tV))
      = none)
    (h2 : ∀ i, i < (smtpP2 i1 i2 (pickS u.Host hV)).length → matchNumFieldAt "Port".data
      ((smtpP2 i1 i2 (pickS u.Host hV)).drop i
        ++ (numText "Port".data dV ++ smtpT3 i3 i4 i5 i6 i7 uV pV lV tV)) = none)
    (h3 : ∀ i, i < (smtpP3 i1 i2 i3 (pickS u.Host hV) (pickN u.Port dV)).length →
      matchFieldAt "Username".data
      ((smtpP3 i1 i2 i3 (pickS u.Host hV) (pickN u.Port dV)).drop i
        ++ (fieldText "Username".data uV ++ smtpT4 i4 i5 i6 i7 pV lV tV)) = none)
    (h4 : ∀ i, i < (smtpP4 i1 i2 i3 i4 (pickS u.Host hV) (pickN u.Port dV)
        (pickS u.Username uV)).length →
      matchFieldAt "Password".data
      ((smtpP4 i1 i2 i3 i4 (pickS u.Host hV) (pickN u.Port dV) (pickS u.Username uV)).drop i
        ++ (fieldText "Password".data pV ++ smtpT5 i5 i6 i7 lV tV)) = none)
    (h5 : ∀ i, i < (smtpP5 i1 i2 i3 i4 i5 (pickS u.Host hV) (pickN u.Port dV)
        (pickS u.Username uV) (pickS u.Password pV)).length →
      matchFieldAt "LocalName".data
      ((smtpP5 i1 i2 i3 i4 i5 (pickS u.Host hV) (pickN u.Port dV) (pickS u.Username uV)
          (pickS u.Password pV)).drop i
        ++ (fieldText "LocalName".data lV ++ smtpT6 i6 i7 tV)) = none)
    (h6 : ∀ i, i < (smtpP6 i1 i2 i3 i4 i5 i6 (pickS u.Host hV) (pickN u.Port dV)
        (pickS u.Username uV) (pickS u.Password pV) (pickS u.LocalName lV)).length →
      matchBoolFieldAt "TLS".data
      ((smtpP6 i1 i2 i3 i4 i5 i6 (pickS u.Host hV) (pickN u.Port dV) (pickS u.Username uV)
          (pickS u.Password pV) (pickS u.LocalName lV)).drop i
        ++ (boolText "TLS".data tV ++ i7)) = none) :
    applySMTPFields u (smtpCT i1 i2 i3 i4 i5 i6 i7 hV dV uV pV lV tV)
      = smtpCT i1 i2 i3 i4 i5 i6 i7 (pickS u.Host hV) (pickN u.Port dV)
          (pickS u.Username uV) (pickS u.Password pV) (pickS u.LocalName lV)
          (pickB u.TLS tV) := by
  have s1 : (match u.Host with
      | some v => replaceQuotedLit "Host".data v.data
          (smtpCT i1 i2 i3 i4 i5 i6 i7 hV dV uV pV lV tV)
      | none => smtpCT i1 i2 i3 i4 i5 i6 i7 hV dV uV pV lV tV)
      = smtpCT i1 i2 i3 i4 i5 i6 i7 (pickS u.Host hV) dV uV pV lV tV := by
    cases hc : u.Host with
    | none => simp [pickS]
    | some v =>
      simp only [pickS_someEq]
      exact replaceQuotedLit_split "Host".data v.data i1 hV
        (smtpT2 i2 i3 i4 i5 i6 i7 dV uV pV lV tV) h1 hqH
  have s2 : (match u.Port with
      | some n => replaceNumLit "Port".data (toString n).data
          (smtpCT i1 i2 i3 i4 i5 i6 i7 (pickS u.Host hV) dV uV pV lV tV)
      | none => smtpCT i1 i2 i3 i4 i5 i6 i7 (pickS u.Host hV) dV uV pV lV tV)
      = smtpCT i1 i2 i3 i4 i5 i6 i7 (pickS u.Host hV) (pickN u.Port dV) uV pV lV tV := by
    cases hc : u.Port with
    | none => simp [pickN]
    | some n =>
      simp only [pickN]
      have e1 : smtpCT i1 i2 i3 i4 i5 i6 i7 (pickS u.Host hV) dV uV pV lV tV
          = smtpP2 i1 i2 (pickS u.Host hV)
            ++ (numText "Port".data dV ++ smtpT3 i3 i4 i5 i6 i7 uV pV lV tV) := by
        simp [smtpCT, smtpT2, smtpP2, List.append_assoc]
      have e2 : smtpCT i1 i2 i3 i4 i5 i6 i7 (pickS u.Host hV) (toString n).data uV pV lV tV
          = smtpP2 i1 i2 (pickS u.Host hV)
            ++ (numText "Port".data (toString n).data
              ++ smtpT3 i3 i4 i5 i6 i7 uV pV lV tV) := by
        simp [smtpCT, smtpT2, smtpP2, List.append_assoc]
      rw [e1, replaceNumLit_split "Port".data (toString n).data (smtpP2 i1 i2 (pickS u.Host hV))
        dV (smtpT3 i3 i4 i5 i6 i7 uV pV lV tV) h2 hdD hr3, ← e2]
  have s3 : (match u.Username with
      | some v => replaceQuotedLit "Username".data v.data
          (smtpCT i1 i2 i3 i4 i5 i6 i7 (pickS u.Host hV) (pickN u.Port dV) uV pV lV tV)
      | none => smtpCT i1 i2 i3 i4 i5 i6 i7 (pickS u.Host hV) (pickN u.Port dV) uV pV lV tV)
      = smtpCT i1 i2 i3 i4 i5 i6 i7 (pickS u.Host hV) (pickN u.Port dV)
          (pickS u.Username uV) pV lV tV := by
    cases hc : u.Username with
    | none => simp [pickS]
    | some v =>
      simp only [pickS_someEq]
      have e1 : smtpCT i1 i2 i3 i4 i5 i6 i7 (pickS u.Host hV) (pickN u.Port dV) uV pV lV tV
          = smtpP3 i1 i2 i3 (pickS u.Host hV) (pickN u.Port dV)
            ++ (fieldText "Username".data uV ++ smtpT4 i4 i5 i6 i7 pV lV tV) := by
        simp [smtpCT, smtpT2, smtpT3, smtpP2, smtpP3, List.append_assoc]
      have e2 : smtpCT i1 i2 i3 i4 i5 i6 i7 (pickS u.Host hV) (pickN u.Port dV) v.data pV lV tV
          = smtpP3 i1 i2 i3 (pickS u.Host hV) (pickN u.Port dV)
            ++ (fieldText "Username".data v.data ++ smtpT4 i4 i5 i6 i7 pV lV tV) := by
        simp [smtpCT, smtpT2, smtpT3, smtpP2, smtpP3, List.append_assoc]
      rw [e1, replaceQuotedLit_split "Username".data v.data
        (smtpP3 i1 i2 i3 (pickS u.Host hV) (pickN u.Port dV)) uV
        (smtpT4 i4 i5 i6 i7 pV lV tV) h3 hqU, ← e2]
  have s4 : (match u.Password with
      | some v => replaceQuotedLit "Password".data v.data
          (smtpCT i1 i2 i3 i4 i5 i6 i7 (pickS u.Host hV) (pickN u.Port dV)
            (pickS u.Username uV) pV lV tV)
      | none => smtpCT i1 i2 i3 i4 i5 i6 i7 (pickS u.Host hV) (pickN u.Port dV)
          (pickS u.Username uV) pV lV tV)
      = smtpCT i1 i2 i3 i4 i5 i6 i7 (pickS u.Host hV) (pickN u.Port dV)
          (pickS u.Username uV) (pickS u.Password pV) lV tV := by
    cases hc : u.Password with
    | none => simp [pickS]
    | some v =>
      simp only [pickS_someEq]
      have e1 : smtpCT i1 i2 i3 i4 i5 i6 i7 (pickS u.Host hV) (pickN u.Port dV)
            (pickS u.Username uV) pV lV tV
          = smtpP4 i1 i2 i3 i4 (pickS u.Host hV) (pickN u.Port dV) (pickS u.Username uV)
            ++ (fieldText "Password".data pV ++ smtpT5 i5 i6 i7 lV tV) := by
        simp [smtpCT, smtpT2, smtpT3, smtpT4, smtpP2, smtpP3, smtpP4, List.append_assoc]
      have e2 : smtpCT i1 i2 i3 i4 i5 i6 i7 (pickS u.Host hV) (pickN u.Port dV)
            (pickS u.Username uV) v.data lV tV
          = smtpP4 i1 i2 i3 i4 (pickS u.Host hV) (pickN u.Port dV) (pickS u.Username uV)
            ++ (fieldText "Password".data v.data ++ smtpT5 i5 i6 i7 lV tV) := by
        simp [smtpCT, smtpT2, smtpT3, smtpT4, smtpP2, smtpP3, smtpP4, List.append_assoc]
      rw [e1, replaceQuotedLit_split "Password".data v.data
        (smtpP4 i1 i2 i3 i4 (pickS u.Host hV) (pickN u.Port dV) (pickS u.Username uV)) pV
        (smtpT5 i5 i6 i7 lV tV) h4 hqP, ← e2]
  have s5 : (match u.LocalName with
      | some v => replaceQuotedLit "LocalName".data v.data
          (smtpCT i1 i2 i3 i4 i5 i6 i7 (pickS u.Host hV) (pickN u.Port dV)
            (pickS u.Username uV) (pickS u.Password pV) lV tV)
      | none => smtpCT i1 i2 i3 i4 i5 i6 i7 (pickS u.Host hV) (pickN u.Port dV)
          (pickS u.Username uV) (pickS u.Password pV) lV tV)
      = smtpCT i1 i2 i3 i4 i5 i6 i7 (pickS u.Host hV) (pickN u.Port dV)
          (pickS u.Username uV) (pickS u.Password pV) (pickS u.LocalName lV) tV := by
    cases hc : u.LocalName with
    | none => simp [pickS]
    | some v =>
      simp only [pickS_someEq]
      have e1 : smtpCT i1 i2 i3 i4 i5 i6 i7 (pickS u.Host hV) (pickN u.Port dV)
            (pickS u.Username uV) (pickS u.Password pV) lV tV
          = smtpP5 i1 i2 i3 i4 i5 (pickS u.Host hV) (pickN u.Port dV) (pickS u.Username uV)
              (pickS u.Password pV)
            ++ (fieldText "LocalName".data lV ++ smtpT6 i6 i7 tV) := by
        simp [smtpCT, smtpT2, smtpT3, smtpT4, smtpT5, smtpP2, smtpP3, smtpP4, smtpP5,
          List.append_assoc]
      have e2 : smtpCT i1 i2 i3 i4 i5 i6 i7 (pickS u.Host hV) (pickN u.Port dV)
            (pickS u.Username uV) (pickS u.Password pV) v.data tV
          = smtpP5 i1 i2 i3 i4 i5 (pickS u.Host hV) (pickN u.Port dV) (pickS u.Username uV)
              (pickS u.Password pV)
            ++ (fieldText "LocalName".data v.data ++ smtpT6 i6 i7 tV) := by
        simp [smtpCT, smtpT2, smtpT3, smtpT4, smtpT5, smtpP2, smtpP3, smtpP4, smtpP5,
          List.append_assoc]
      rw [e1, replaceQuotedLit_split "LocalName".data v.data
        (smtpP5 i1 i2 i3 i4 i5 (pickS u.Host hV) (pickN u.Port dV) (pickS u.Username uV)
          (pickS u.Password pV)) lV
        (smtpT6 i6 i7 tV) h5 hqL, ← e2]
  have s6 : (match u.TLS with
      | some v => replaceBoolLit "TLS".data (boolChars v)
          (smtpCT i1 i2 i3 i4 i5 i6 i7 (pickS u.Host hV) (pickN u.Port dV)
            (pickS u.Username uV) (pickS u.Password pV) (pickS u.LocalName lV) tV)
      | none => smtpCT i1 i2 i3 i4 i5 i6 i7 (pickS u.Host hV) (pickN u.Port dV)
          (pickS u.Username uV) (pickS u.Password pV) (pickS u.LocalName lV) tV)
      = smtpCT i1 i2 i3 i4 i5 i6 i7 (pickS u.Host hV) (pickN u.Port dV)
          (pickS u.Username uV) (pickS u.Password pV) (pickS u.LocalName lV)
          (pickB u.TLS tV) := by
    cases hc : u.TLS with
    | none => simp [pickB]
    | some v =>
      simp only [pickB]
      have e1 : smtpCT i1 i2 i3 i4 i5 i6 i7 (pickS u.Host hV) (pickN u.Port dV)
            (pickS u.Username uV) (pickS u.Password pV) (pickS u.LocalName lV) tV
          = smtpP6 i1 i2 i3 i4 i5 i6 (pickS u.Host hV) (pickN u.Port dV) (pickS u.Username uV)
              (pickS u.Password pV) (pickS u.LocalName lV)
            ++ (boolText "TLS".data tV ++ i7) := by
        simp [smtpCT, smtpT2, smtpT3, smtpT4, smtpT5, smtpT6, smtpP2, smtpP3, smtpP4, smtpP5,
          smtpP6, List.append_assoc]
      have e2 : smtpCT i1 i2 i3 i4 i5 i6 i7 (pickS u.Host hV) (pickN u.Port dV)
            (pickS u.Username uV) (pickS u.Password pV) (pickS u.LocalName lV) v
          = smtpP6 i1 i2 i3 i4 i5 i6 (pickS u.Host hV) (pickN u.Port dV) (pickS u.Username uV)
              (pickS u.Password pV) (pickS u.LocalName lV)
            ++ (boolText "TLS".data v ++ i7) := by
        simp [smtpCT, smtpT2, smtpT3, smtpT4, smtpT5, smtpT6, smtpP2, smtpP3, smtpP4, smtpP5,
          smtpP6, List.append_assoc]
      rw [e1, replaceBoolLit_split "TLS".data v
        (smtpP6 i1 i2 i3 i4 i5 i6 (pickS u.Host hV) (pickN u.Port dV) (pickS u.Username uV)
          (pickS u.Password pV) (pickS u.LocalName lV)) tV i7 h6, ← e2]
  simp only [applySMTPFields]
  rw [s1, s2, s3, s4, s5, s6]

/-- The S3 analogue of the SMTP canonical-section theorem: for every update
`u` and canonical S3 section body, `applyS3Fields` rewrites exactly the
values of the fields named in `u`. -/
theorem applyS3Fields_canonical (u : S3Update)
    (j1 j2 j3 j4 j5 j6 j7 bV rV eV aV sV : List Char) (fV : Bool)
    (hqB : quoteChar ∉ bV) (hqR : quoteChar ∉ rV) (hqE : quoteChar ∉ eV)
    (hqA : quoteChar ∉ aV) (hqS : quoteChar ∉ sV)
    (h1 : ∀ i, i < j1.length → matchFieldAt "Bucket".data
      (j1.drop i ++ (fieldText "Bucket".data bV ++ s3T2 j2 j3 j4 j5 j6 j7 rV eV aV sV fV))
      = none)
    (h2 : ∀ i, i < (s3P2 j1 j2 (pickS u.Bucket bV)).length → matchFieldAt "Region".data
      ((s3P2 j1 j2 (pickS u.Bucket bV)).drop i
        ++ (fieldText "Region".data rV ++ s3T3 j3 j4 j5 j6 j7 eV aV sV fV)) = none)
    (h3 : ∀ i, i < (s3P3 j1 j2 j3 (pickS u.Bucket bV) (pickS u.Region rV)).length →
      matchFieldAt "Endpoint".data
      ((s3P3 j1 j2 j3 (pickS u.Bucket bV) (pickS u.Region rV)).drop i
        ++ (fieldText "Endpoint".data eV ++ s3T4 j4 j5 j6 j7 aV sV fV)) = none)
    (h4 : ∀ i, i < (s3P4 j1 j2 j3 j4 (pickS u.Bucket bV) (pickS u.Region rV)
        (pickS u.Endpoint eV)).length →
      matchFieldAt "AccessKey".data
      ((s3P4 j1 j2 j3 j4 (pickS u.Bucket bV) (pickS u.Region rV) (pickS u.Endpoint eV)).drop i
        ++ (fieldText "AccessKey".data aV ++ s3T5 j5 j6 j7 sV fV)) = none)
    (h5 : ∀ i, i < (s3P5 j1 j2 j3 j4 j5 (pickS u.Bucket bV) (pickS u.Region rV)
        (pickS u.Endpoint eV) (pickS u.AccessKey aV)).length →
      matchFieldAt "SecretKey".data
      ((s3P5 j1 j2 j3 j4 j5 (pickS u.Bucket bV) (pickS u.Region rV) (pickS u.Endpoint eV)
          (pickS u.AccessKey aV)).drop i
        ++ (fieldText "SecretKey".data sV ++ s3T6 j6 j7 fV)) = none)
    (h6 : ∀ i, i < (s3P6 j1 j2 j3 j4 j5 j6 (pickS u.Bucket bV) (pickS u.Region rV)
        (pickS u.Endpoint eV) (pickS u.AccessKey aV) (pickS u.SecretKey sV)).length →
      matchBoolFieldAt "ForcePathStyle".data
      ((s3P6 j1 j2 j3 j4 j5 j6 (pickS u.Bucket bV) (pickS u.Region rV) (pickS u.Endpoint eV)
          (pickS u.AccessKey aV) (pickS u.SecretKey sV)).drop i
        ++ (boolText "ForcePathStyle".data fV ++ j7)) = none) :
    applyS3Fields u (s3CT j1 j2 j3 j4 j5 j6 j7 bV rV eV aV sV fV)
      = s3CT j1 j2 j3 j4 j5 j6 j7 (pickS u.Bucket bV) (pickS u.Region rV)
          (pickS u.Endpoint eV) (pickS u.AccessKey aV) (pickS u.SecretKey sV)
          (pickB u.ForcePathStyle fV) := by
  have s1 : (match u.Bucket with
      | some v => replaceQuotedLit "Bucket".data v.data
          (s3CT j1 j2 j3 j4 j5 j6 j7 bV rV eV aV sV fV)
      | none => s3CT j1 j2 j3 j4 j5 j6 j7 bV rV eV aV sV fV)
      = s3CT j1 j2 j3 j4 j5 j6 j7 (pickS u.Bucket bV) rV eV aV sV fV := by
    cases hc : u.Bucket with
    | none => rfl
    | some v =>
      simp only [pickS_someEq]
      exact replaceQuotedLit_split "Bucket".data v.data j1 bV
        (s3T2 j2 j3 j4 j5 j6 j7 rV eV aV sV fV) h1 hqB
  have s2 : (match u.Region with
      | some v => replaceQuotedLit "Region".data v.data
          (s3CT j1 j2 j3 j4 j5 j6 j7 (pickS u.Bucket bV) rV eV aV sV fV)
      | none => s3CT j1 j2 j3 j4 j5 j6 j7 (pickS u.Bucket bV) rV eV aV sV fV)
      = s3CT j1 j2 j3 j4 j5 j6 j7 (pickS u.Bucket bV) (pickS u.Region rV) eV aV sV fV := by
    cases hc : u.Region with
    | none => rfl
    | some v =>
      simp only [pickS_someEq]
      have e1 : s3CT j1 j2 j3 j4 j5 j6 j7 (pickS u.Bucket bV) rV eV aV sV fV
          = s3P2 j1 j2 (pickS u.Bucket bV)
            ++ (fieldText "Region".data rV ++ s3T3 j3 j4 j5 j6 j7 eV aV sV fV) := by
        simp [s3CT, s3T2, s3P2, List.append_assoc]
      have e2 : s3CT j1 j2 j3 j4 j5 j6 j7 (pickS u.Bucket bV) v.data eV aV sV fV
          = s3P2 j1 j2 (pickS u.Bucket bV)
            ++ (fieldText "Region".data v.data ++ s3T3 j3 j4 j5 j6 j7 eV aV sV fV) := by
        simp [s3CT, s3T2, s3P2, List.append_assoc]
      rw [e1, replaceQuotedLit_split "Region".data v.data (s3P2 j1 j2 (pickS u.Bucket bV)) rV
        (s3T3 j3 j4 j5 j6 j7 eV aV sV fV) h2 hqR, ← e2]
  have s3 : (match u.Endpoint with
      | some v => replaceQuotedLit "Endpoint".data v.data
          (s3CT j1 j2 j3 j4 j5 j6 j7 (pickS u.Bucket bV) (pickS u.Region rV) eV aV sV fV)
      | none => s3CT j1 j2 j3 j4 j5 j6 j7 (pickS u.Bucket bV) (pickS u.Region rV) eV aV sV fV)
      = s3CT j1 j2 j3 j4 j5 j6 j7 (pickS u.Bucket bV) (pickS u.Region rV)
          (pickS u.Endpoint eV) aV sV fV := by
    cases hc : u.Endpoint with
    | none => rfl
    | some v =>
      simp only [pickS_someEq]
      have e1 : s3CT j1 j2 j3 j4 j5 j6 j7 (pickS u.Bucket bV) (pickS u.Region rV) eV aV sV fV
          = s3P3 j1 j2 j3 (pickS u.Bucket bV) (pickS u.Region rV)
            ++ (fieldText "Endpoint".data eV ++ s3T4 j4 j5 j6 j7 aV sV fV) := by
        simp [s3CT, s3T2, s3T3, s3P2, s3P3, List.append_assoc]
      have e2 : s3CT j1 j2 j3 j4 j5 j6 j7 (pickS u.Bucket bV) (pickS u.Region rV) v.data aV sV fV
          = s3P3 j1 j2 j3 (pickS u.Bucket bV) (pickS u.Region rV)
            ++ (fieldText "Endpoint".data v.data ++ s3T4 j4 j5 j6 j7 aV sV fV) := by
        simp [s3CT, s3T2, s3T3, s3P2, s3P3, List.append_assoc]
      rw [e1, replaceQuotedLit_split "Endpoint".data v.data
        (s3P3 j1 j2 j3 (pickS u.Bucket bV) (pickS u.Region rV)) eV
        (s3T4 j4 j5 j6 j7 aV sV fV) h3 hqE, ← e2]
  have s4 : (match u.AccessKey with
      | some v => replaceQuotedLit "AccessKey".data v.data
          (s3CT j1 j2 j3 j4 j5 j6 j7 (pickS u.Bucket bV) (pickS u.Region rV)
            (pickS u.Endpoint eV) aV sV fV)
      | none => s3CT j1 j2 j3 j4 j5 j6 j7 (pickS u.Bucket bV) (pickS u.Region rV)
          (pickS u.Endpoint eV) aV sV fV)
      = s3CT j1 j2 j3 j4 j5 j6 j7 (pickS u.Bucket bV) (pickS u.Region rV)
          (pickS u.Endpoint eV) (pickS u.AccessKey aV) sV fV := by
    cases hc : u.AccessKey with
    | none => rfl
    | some v =>
      simp only [pickS_someEq]
      have e1 : s3CT j1 j2 j3 j4 j5 j6 j7 (pickS u.Bucket bV) (pickS u.Region rV)
            (pickS u.Endpoint eV) aV sV fV
          = s3P4 j1 j2 j3 j4 (pickS u.Bucket bV) (pickS u.Region rV) (pickS u.Endpoint eV)
            ++ (fieldText "AccessKey".data aV ++ s3T5 j5 j6 j7 sV fV) := by
        simp [s3CT, s3T2, s3T3, s3T4, s3P2, s3P3, s3P4, List.append_assoc]
      have e2 : s3CT j1 j2 j3 j4 j5 j6 j7 (pickS u.Bucket bV) (pickS u.Region rV)
            (pickS u.Endpoint eV) v.data sV fV
          = s3P4 j1 j2 j3 j4 (pickS u.Bucket bV) (pickS u.Region rV) (pickS u.Endpoint eV)
            ++ (fieldText "AccessKey".data v.data ++ s3T5 j5 j6 j7 sV fV) := by
        simp [s3CT, s3T2, s3T3, s3T4, s3P2, s3P3, s3P4, List.append_assoc]
      rw [e1, replaceQuotedLit_split "AccessKey".data v.data
        (s3P4 j1 j2 j3 j4 (pickS u.Bucket bV) (pickS u.Region rV) (pickS u.Endpoint eV)) aV
        (s3T5 j5 j6 j7 sV fV) h4 hqA, ← e2]
  have s5 : (match u.SecretKey with
      | some v => replaceQuotedLit "SecretKey".data v.data
          (s3CT j1 j2 j3 j4 j5 j6 j7 (pickS u.Bucket bV) (pickS u.Region rV)
            (pickS u.Endpoint eV) (pickS u.AccessKey aV) sV fV)
      | none => s3CT j1 j2 j3 j4 j5 j6 j7 (pickS u.Bucket bV) (pickS u.Region rV)
          (pickS u.Endpoint eV) (pickS u.AccessKey aV) sV fV)
      = s3CT j1 j2 j3 j4 j5 j6 j7 (pickS u.Bucket bV) (pickS u.Region rV)
          (pickS u.Endpoint eV) (pickS u.AccessKey aV) (pickS u.SecretKey sV) fV := by
    cases hc : u.SecretKey with
    | none => rfl
    | some v =>
      simp only [pickS_someEq]
      have e1 : s3CT j1 j2 j3 j4 j5 j6 j7 (pickS u.Bucket bV) (pickS u.Region rV)
            (pickS u.Endpoint eV) (pickS u.AccessKey aV) sV fV
          = s3P5 j1 j2 j3 j4 j5 (pickS u.Bucket bV) (pickS u.Region rV) (pickS u.Endpoint eV)
              (pickS u.AccessKey aV)
            ++ (fieldText "SecretKey".data sV ++ s3T6 j6 j7 fV) := by
        simp [s3CT, s3T2, s3T3, s3T4, s3T5, s3P2, s3P3, s3P4, s3P5, List.append_assoc]
      have e2 : s3CT j1 j2 j3 j4 j5 j6 j7 (pickS u.Bucket bV) (pickS u.Region rV)
            (pickS u.Endpoint eV) (pickS u.AccessKey aV) v.data fV
          = s3P5 j1 j2 j3 j4 j5 (pickS u.Bucket bV) (pickS u.Region rV) (pickS u.Endpoint eV)
              (pickS u.AccessKey aV)
            ++ (fieldText "SecretKey".data v.data ++ s3T6 j6 j7 fV) := by
        simp [s3CT, s3T2, s3T3, s3T4, s3T5, s3P2, s3P3, s3P4, s3P5, List.append_assoc]
      rw [e1, replaceQuotedLit_split "SecretKey".data v.data
        (s3P5 j1 j2 j3 j4 j5 (pickS u.Bucket bV) (pickS u.Region rV) (pickS u.Endpoint eV)
          (pickS u.AccessKey aV)) sV
        (s3T6 j6 j7 fV) h5 hqS, ← e2]
  have s6 : (match u.ForcePathStyle with
      | some v => replaceBoolLit "ForcePathStyle".data (boolChars v)
          (s3CT j1 j2 j3 j4 j5 j6 j7 (pickS u.Bucket bV) (pickS u.Region rV)
            (pickS u.Endpoint eV) (pickS u.AccessKey aV) (pickS u.SecretKey sV) fV)
      | none => s3CT j1 j2 j3 j4 j5 j6 j7 (pickS u.Bucket bV) (pickS u.Region rV)
          (pickS u.Endpoint eV) (pickS u.AccessKey aV) (pickS u.SecretKey sV) fV)
      = s3CT j1 j2 j3 j4 j5 j6 j7 (pickS u.Bucket bV) (pickS u.Region rV)
          (pickS u.Endpoint eV) (pickS u.AccessKey aV) (pickS u.SecretKey sV)
          (pickB u.ForcePathStyle fV) := by
    cases hc : u.ForcePathStyle with
    | none => simp [pickB]
    | some v =>
      simp only [pickB]
      have e1 : s3CT j1 j2 j3 j4 j5 j6 j7 (pickS u.Bucket bV) (pickS u.Region rV)
            (pickS u.Endpoint eV) (pickS u.AccessKey aV) (pickS u.SecretKey sV) fV
          = s3P6 j1 j2 j3 j4 j5 j6 (pickS u.Bucket bV) (pickS u.Region rV) (pickS u.Endpoint eV)
              (pickS u.AccessKey aV) (pickS u.SecretKey sV)
            ++ (boolText "ForcePathStyle".data fV ++ j7) := by
        simp [s3CT, s3T2, s3T3, s3T4, s3T5, s3T6, s3P2, s3P3, s3P4, s3P5, s3P6,
          List.append_assoc]
      have e2 : s3CT j1 j2 j3 j4 j5 j6 j7 (pickS u.Bucket bV) (pickS u.Region rV)
            (pickS u.Endpoint eV) (pickS u.AccessKey aV) (pickS u.SecretKey sV) v
          = s3P6 j1 j2 j3 j4 j5 j6 (pickS u.Bucket bV) (pickS u.Region rV) (pickS u.Endpoint eV)
              (pickS u.AccessKey aV) (pickS u.SecretKey sV)
            ++ (boolText "ForcePathStyle".data v ++ j7) := by
        simp [s3CT, s3T2, s3T3, s3T4, s3T5, s3T6, s3P2, s3P3, s3P4, s3P5, s3P6,
          List.append_assoc]
      rw [e1, replaceBoolLit_split "ForcePathStyle".data v
        (s3P6 j1 j2 j3 j4 j5 j6 (pickS u.Bucket bV) (pickS u.Region rV) (pickS u.Endpoint eV)
          (pickS u.AccessKey aV) (pickS u.SecretKey sV)) fV j7 h6, ← e2]
  simp only [applyS3Fields]
  rw [s1, s2, s3, s4, s5, s6]

theorem sectionText_ne_nil (key content : List Char) : sectionText key content ≠ [] :=
  ne_nil_of_right_ne_nil key (by simp)

/-- On every canonical superuser document — the first match of the `Email`
pattern is the `Email` field and the first match of the `Password` pattern
(after the email rewrite) is the `Password` field — `updateSuperuserCredentials`
replaces exactly the two credential values and leaves every other character
unchanged. -/
theorem updateSuperuserCredentials_canonical (email password : String)
    (a m b eV pV : List Char)
    (hqE : quoteChar ∉ eV) (hqP : quoteChar ∉ pV)
    (h1 : ∀ i, i < a.length → matchFieldAt "Email".data
      (a.drop i ++ (fieldText "Email".data eV ++ (m ++ (fieldText "Password".data pV ++ b))))
      = none)
    (h2 : ∀ i, i < (suP2 a m email.data).length → matchFieldAt "Password".data
      ((suP2 a m email.data).drop i ++ (fieldText "Password".data pV ++ b)) = none) :
    updateSuperuserCredentials (String.mk (suCT a m b eV pV)) email password
      = String.mk (suCT a m b email.data password.data) := by
  have hdoc : String.mk (suCT a m b eV pV) ≠ "" :=
    mk_ne_empty (ne_nil_of_right_ne_nil a (ne_nil_of_left_ne_nil _ (fieldText_ne_nil _ _)))
  have hstep1 : replaceFieldKeep "Email".data email.data (suCT a m b eV pV)
      = suP2 a m email.data ++ (fieldText "Password".data pV ++ b) := by
    have e1 : suCT a m b eV pV
        = a ++ (fieldText "Email".data eV ++ (m ++ (fieldText "Password".data pV ++ b))) := rfl
    rw [e1, replaceFieldKeep_split "Email".data email.data a eV
      (m ++ (fieldText "Password".data pV ++ b)) h1 hqE]
    simp [suP2, List.append_assoc]
  have hstep2 : replaceFieldKeep "Password".data password.data
      (suP2 a m email.data ++ (fieldText "Password".data pV ++ b))
      = suP2 a m email.data ++ (fieldText "Password".data password.data ++ b) :=
    replaceFieldKeep_split "Password".data password.data (suP2 a m email.data) pV b h2 hqP
  simp only [updateSuperuserCredentials, if_neg hdoc]
  refine congrArg String.mk ?_
  show replaceFieldKeep "Password".data password.data
      (replaceFieldKeep "Email".data email.data (suCT a m b eV pV))
    = suCT a m b email.data password.data
  rw [hstep1, hstep2]
  simp [suCT, suP2, List.append_assoc]

/-- On every canonical advanced-settings document — an `SMTP` section with
body `SC` then an `S3` section with body `TC`, each pattern matching first at
its section — `updateAdvancedSettings` rewrites the `SMTP` body by
`applySMTPFields` and the `S3` body by `applyS3Fields` (each only when its
update is present) and leaves every other character unchanged. -/
theorem updateAdvancedSettings_canonical (upd : AdvUpdates)
    (P Q R SC TC SC1 TC1 : List Char)
    (hSC : (match upd.SMTP with | some u => applySMTPFields u SC | none => SC) = SC1)
    (hTC : (match upd.S3 with | some u => applyS3Fields u TC | none => TC) = TC1)
    (hcS : closeBrace ∉ SC) (hneS : SC ≠ [])
    (hcT : closeBrace ∉ TC) (hneT : TC ≠ [])
    (hfP : ∀ i, i < P.length → matchSectionAt "SMTP".data
      (P.drop i ++ (sectionText "SMTP".data SC ++ (Q ++ (sectionText "S3".data TC ++ R))))
      = none)
    (hfQ : ∀ i, i < (advP2 P Q SC1).length → matchSectionAt "S3".data
      ((advP2 P Q SC1).drop i ++ (sectionText "S3".data TC ++ R)) = none) :
    updateAdvancedSettings upd (String.mk (advCT P Q R SC TC))
      = String.mk (advCT P Q R SC1 TC1) := by
  have hdoc : String.mk (advCT P Q R SC TC) ≠ "" :=
    mk_ne_empty (ne_nil_of_right_ne_nil P (ne_nil_of_left_ne_nil _ (sectionText_ne_nil _ _)))
  have egroup : advCT P Q R SC1 TC = advP2 P Q SC1 ++ (sectionText "S3".data TC ++ R) := by
    simp [advCT, advP2, List.append_assoc]
  have hfS : findSectionGo "SMTP".data (advCT P Q R SC TC) = some SC :=
    findSectionGo_split "SMTP".data P SC (Q ++ (sectionText "S3".data TC ++ R)) hfP hcS hneS
  have hfT : findSectionGo "S3".data (advCT P Q R SC1 TC) = some TC := by
    rw [egroup]
    exact findSectionGo_split "S3".data (advP2 P Q SC1) TC R hfQ hcT hneT
  have d1eq : ∀ u, upd.SMTP = some u →
      replaceSectionLit "SMTP".data (applySMTPFields u SC) (advCT P Q R SC TC)
        = advCT P Q R SC1 TC := by
    intro u hu
    rw [hu] at hSC
    have hSC2 : applySMTPFields u SC = SC1 := hSC
    have hrepl := replaceSectionLit_split "SMTP".data (applySMTPFields u SC) P SC
      (Q ++ (sectionText "S3".data TC ++ R)) hfP hcS hneS
    rw [show advCT P Q R SC TC
        = P ++ (sectionText "SMTP".data SC ++ (Q ++ (sectionText "S3".data TC ++ R)))
      from rfl, hrepl, hSC2]
    rfl
  have d2eq : ∀ u, upd.S3 = some u →
      replaceSectionLit "S3".data (applyS3Fields u TC) (advCT P Q R SC1 TC)
        = advCT P Q R SC1 TC1 := by
    intro u hu
    rw [hu] at hTC
    have hTC2 : applyS3Fields u TC = TC1 := hTC
    have hrepl := replaceSectionLit_split "S3".data (applyS3Fields u TC) (advP2 P Q SC1) TC R
      hfQ hcT hneT
    rw [egroup, hrepl, hTC2]
    simp [advCT, advP2, List.append_assoc]
  simp only [] at hfS hfT d1eq d2eq
  cases huS : upd.SMTP with
  | none =>
    have hSC2 : SC = SC1 := by rw [huS] at hSC; exact hSC
    cases huT : upd.S3 with
    | none =>
      have hTC2 : TC = TC1 := by rw [huT] at hTC; exact hTC
      simp only [updateAdvancedSettings, if_neg hdoc, huS, huT]
      rw [hSC2, hTC2]
    | some uT =>
      simp only [updateAdvancedSettings, if_neg hdoc, huS, huT]
      rw [hSC2]
      simp only [hfT]
      rw [d2eq uT huT]
  | some uS =>
    cases huT : upd.S3 with
    | none =>
      have hTC2 : TC = TC1 := by rw [huT] at hTC; exact hTC
      simp only [updateAdvancedSettings, if_neg hdoc, huS, huT]
      simp only [hfS]
      rw [d1eq uS huS, hTC2]
    | some uT =>
      simp only [updateAdvancedSettings, if_neg hdoc, huS, huT]
      simp only [hfS]
      rw [d1eq uS huS]
      simp only [hfT]
      rw [d2eq uT huT]

/-- C9 (amended): on every canonical-layout document — fields written in the
single-space `Key = value` form, the superuser `Email`/`Password` patterns
matching first at the superuser fields, the `SMTP`/`S3` section patterns
matching first at their sections, each field pattern matching first at its
field inside its section (also after the earlier rewrites of the same pass),
and quote-free, brace-free old values — `updateSuperuserCredentials` changes
exactly the two credential values and `updateAdvancedSettings` changes
exactly the values of the fields named in the update, leaving every other
character of the document unchanged.  Universal in the document split, the
old values, the new credentials, and the subset of SMTP/S3 fields present in
the update.  The claim is restricted to replacement values without `$`
(`hNoDollar`): in the source they are spliced into replacement strings in
which `$` sequences are special, a case the character-list embedding does
not model. -/
theorem configRewrites_frame_preserving_canonical
    (email password : String) (uS : SMTPUpdate) (uT : S3Update)
    (a m b eV pV P Q R i1 i2 i3 i4 i5 i6 i7 hV dV uV wV lV : List Char) (tV : Bool)
    (j1 j2 j3 j4 j5 j6 j7 bV rV cV aV kV : List Char) (fV : Bool)
    (hqE : quoteChar ∉ eV) (hqP : quoteChar ∉ pV)
    (hsu1 : ∀ i, i < a.length → matchFieldAt "Email".data
      (a.drop i ++ (fieldText "Email".data eV ++ (m ++ (fieldText "Password".data pV ++ b))))
      = none)
    (hsu2 : ∀ i, i < (suP2 a m email.data).length → matchFieldAt "Password".data
      ((suP2 a m email.data).drop i ++ (fieldText "Password".data pV ++ b)) = none)
    (hqH : quoteChar ∉ hV) (hqU : quoteChar ∉ uV) (hqW : quoteChar ∉ wV)
    (hqL : quoteChar ∉ lV) (hdD : allDigits dV = true)
    (hr3 : headNotDigit (smtpT3 i3 i4 i5 i6 i7 uV wV lV tV) = true)
    (hm1 : ∀ i, i < i1.length → matchFieldAt "Host".data
      (i1.drop i ++ (fieldText "Host".data hV ++ smtpT2 i2 i3 i4 i5 i6 i7 dV uV wV lV tV))
      = none)
    (hm2 : ∀ i, i < (smtpP2 i1 i2 (pickS uS.Host hV)).length → matchNumFieldAt "Port".data
      ((smtpP2 i1 i2 (pickS uS.Host hV)).drop i
        ++ (numText "Port".data dV ++ smtpT3 i3 i4 i5 i6 i7 uV wV lV tV)) = none)
    (hm3 : ∀ i, i < (smtpP3 i1 i2 i3 (pickS uS.Host hV) (pickN uS.Port dV)).length →
      matchFieldAt "Username".data
      ((smtpP3 i1 i2 i3 (pickS uS.Host hV) (pickN uS.Port dV)).drop i
        ++ (fieldText "Username".data uV ++ smtpT4 i4 i5 i6 i7 wV lV tV)) = none)
    (hm4 : ∀ i, i < (smtpP4 i1 i2 i3 i4 (pickS uS.Host hV) (pickN uS.Port dV)
        (pickS uS.Username uV)).length →
      matchFieldAt "Password".data
      ((smtpP4 i1 i2 i3 i4 (pickS uS.Host hV) (pickN uS.Port dV) (pickS uS.Username uV)).drop i
        ++ (fieldText "Password".data wV ++ smtpT5 i5 i6 i7 lV tV)) = none)
    (hm5 : ∀ i, i < (smtpP5 i1 i2 i3 i4 i5 (pickS uS.Host hV) (pickN uS.Port dV)
        (pickS uS.Username uV) (pickS uS.Password wV)).length →
      matchFieldAt "LocalName".data
      ((smtpP5 i1 i2 i3 i4 i5 (pickS uS.Host hV) (pickN uS.Port dV) (pickS uS.Username uV)
          (pickS uS.Password wV)).drop i
        ++ (fieldText "LocalName".data lV ++ smtpT6 i6 i7 tV)) = none)
    (hm6 : ∀ i, i < (smtpP6 i1 i2 i3 i4 i5 i6 (pickS uS.Host hV) (pickN uS.Port dV)
        (pickS uS.Username uV) (pickS uS.Password wV) (pickS uS.LocalName lV)).length →
      matchBoolFieldAt "TLS".data
      ((smtpP6 i1 i2 i3 i4 i5 i6 (pickS uS.Host hV) (pickN uS.Port dV) (pickS uS.Username uV)
          (pickS uS.Password wV) (pickS uS.LocalName lV)).drop i
        ++ (boolText "TLS".data tV ++ i7)) = none)
    (hqB : quoteChar ∉ bV) (hqR : quoteChar ∉ rV) (hqC : quoteChar ∉ cV)
    (hqA : quoteChar ∉ aV) (hqK : quoteChar ∉ kV)
    (hs1 : ∀ i, i < j1.length → matchFieldAt "Bucket".data
      (j1.drop i ++ (fieldText "Bucket".data bV ++ s3T2 j2 j3 j4 j5 j6 j7 rV cV aV kV fV))
      = none)
    (hs2 : ∀ i, i < (s3P2 j1 j2 (pickS uT.Bucket bV)).length → matchFieldAt "Region".data
      ((s3P2 j1 j2 (pickS uT.Bucket bV)).drop i
        ++ (fieldText "Region".data rV ++ s3T3 j3 j4 j5 j6 j7 cV aV kV fV)) = none)
    (hs3 : ∀ i, i < (s3P3 j1 j2 j3 (pickS uT.Bucket bV) (pickS uT.Region rV)).length →
      matchFieldAt "Endpoint".data
      ((s3P3 j1 j2 j3 (pickS uT.Bucket bV) (pickS uT.Region rV)).drop i
        ++ (fieldText "Endpoint".data cV ++ s3T4 j4 j5 j6 j7 aV kV fV)) = none)
    (hs4 : ∀ i, i < (s3P4 j1 j2 j3 j4 (pickS uT.Bucket bV) (pickS uT.Region rV)
        (pickS uT.Endpoint cV)).length →
      matchFieldAt "AccessKey".data
      ((s3P4 j1 j2 j3 j4 (pickS uT.Bucket bV) (pickS uT.Region rV)
          (pickS uT.Endpoint cV)).drop i
        ++ (fieldText "AccessKey".data aV ++ s3T5 j5 j6 j7 kV fV)) = none)
    (hs5 : ∀ i, i < (s3P5 j1 j2 j3 j4 j5 (pickS uT.Bucket bV) (pickS uT.Region rV)
        (pickS uT.Endpoint cV) (pickS uT.AccessKey aV)).length →
      matchFieldAt "SecretKey".data
      ((s3P5 j1 j2 j3 j4 j5 (pickS uT.Bucket bV) (pickS uT.Region rV) (pickS uT.Endpoint cV)
          (pickS uT.AccessKey aV)).drop i
        ++ (fieldText "SecretKey".data kV ++ s3T6 j6 j7 fV)) = none)
    (hs6 : ∀ i, i < (s3P6 j1 j2 j3 j4 j5 j6 (pickS uT.Bucket bV) (pickS uT.Region rV)
        (pickS uT.Endpoint cV) (pickS uT.AccessKey aV) (pickS uT.SecretKey kV)).length →
      matchBoolFieldAt "ForcePathStyle".data
      ((s3P6 j1 j2 j3 j4 j5 j6 (pickS uT.Bucket bV) (pickS uT.Region rV) (pickS uT.Endpoint cV)
          (pickS uT.AccessKey aV) (pickS uT.SecretKey kV)).drop i
        ++ (boolText "ForcePathStyle".data fV ++ j7)) = none)
    (hcS : closeBrace ∉ smtpCT i1 i2 i3 i4 i5 i6 i7 hV dV uV wV lV tV)
    (hcT : closeBrace ∉ s3CT j1 j2 j3 j4 j5 j6 j7 bV rV cV aV kV fV)
    (hfP : ∀ i, i < P.length → matchSectionAt "SMTP".data
      (P.drop i ++ (sectionText "SMTP".data (smtpCT i1 i2 i3 i4 i5 i6 i7 hV dV uV wV lV tV)
        ++ (Q ++ (sectionText "S3".data (s3CT j1 j2 j3 j4 j5 j6 j7 bV rV cV aV kV fV) ++ R))))
      = none)
    (hfQ : ∀ i, i < (advP2 P Q (smtpCT i1 i2 i3 i4 i5 i6 i7 (pickS uS.Host hV)
        (pickN uS.Port dV) (pickS uS.Username uV) (pickS uS.Password wV)
        (pickS uS.LocalName lV) (pickB uS.TLS tV))).length →
      matchSectionAt "S3".data
      ((advP2 P Q (smtpCT i1 i2 i3 i4 i5 i6 i7 (pickS uS.Host hV) (pickN uS.Port dV)
          (pickS uS.Username uV) (pickS uS.Password wV) (pickS uS.LocalName lV)
          (pickB uS.TLS tV))).drop i
        ++ (sectionText "S3".data (s3CT j1 j2 j3 j4 j5 j6 j7 bV rV cV aV kV fV) ++ R))
      = none)
    (hNoDollar : (strNoDollar uS.Host && strNoDollar uS.Username && strNoDollar uS.Password
      && strNoDollar uS.LocalName && strNoDollar uT.Bucket && strNoDollar uT.Region
      && strNoDollar uT.Endpoint && strNoDollar uT.AccessKey && strNoDollar uT.SecretKey
      && !email.data.contains dollarChar && !password.data.contains dollarChar) = true) :
    updateSuperuserCredentials (String.mk (suCT a m b eV pV)) email password
      = String.mk (suCT a m b email.data password.data)
    ∧ updateAdvancedSettings ⟨some uS, some uT⟩
        (String.mk (advCT P Q R (smtpCT i1 i2 i3 i4 i5 i6 i7 hV dV uV wV lV tV)
          (s3CT j1 j2 j3 j4 j5 j6 j7 bV rV cV aV kV fV)))
      = String.mk (advCT P Q R
          (smtpCT i1 i2 i3 i4 i5 i6 i7 (pickS uS.Host hV) (pickN uS.Port dV)
            (pickS uS.Username uV) (pickS uS.Password wV) (pickS uS.LocalName lV)
            (pickB uS.TLS tV))
          (s3CT j1 j2 j3 j4 j5 j6 j7 (pickS uT.Bucket bV) (pickS uT.Region rV)
            (pickS uT.Endpoint cV) (pickS uT.AccessKey aV) (pickS uT.SecretKey kV)
            (pickB uT.ForcePathStyle fV))) := by
  refine ⟨updateSuperuserCredentials_canonical email password a m b eV pV hqE hqP hsu1 hsu2,
    ?_⟩
  have hSC : applySMTPFields uS (smtpCT i1 i2 i3 i4 i5 i6 i7 hV dV uV wV lV tV)
      = smtpCT i1 i2 i3 i4 i5 i6 i7 (pickS uS.Host hV) (pickN uS.Port dV)
          (pickS uS.Username uV) (pickS uS.Password wV) (pickS uS.LocalName lV)
          (pickB uS.TLS tV) :=
    applySMTPFields_canonical uS i1 i2 i3 i4 i5 i6 i7 hV dV uV wV lV tV
      hqH hqU hqW hqL hdD hr3 hm1 hm2 hm3 hm4 hm5 hm6
  have hTC : applyS3Fields uT (s3CT j1 j2 j3 j4 j5 j6 j7 bV rV cV aV kV fV)
      = s3CT j1 j2 j3 j4 j5 j6 j7 (pickS uT.Bucket bV) (pickS uT.Region rV)
          (pickS uT.Endpoint cV) (pickS uT.AccessKey aV) (pickS uT.SecretKey kV)
          (pickB uT.ForcePathStyle fV) :=
    applyS3Fields_canonical uT j1 j2 j3 j4 j5 j6 j7 bV rV cV aV kV fV
      hqB hqR hqC hqA hqK hs1 hs2 hs3 hs4 hs5 hs6
  have hneS : smtpCT i1 i2 i3 i4 i5 i6 i7 hV dV uV wV lV tV ≠ [] :=
    ne_nil_of_right_ne_nil i1 (ne_nil_of_left_ne_nil _ (fieldText_ne_nil _ _))
  have hneT : s3CT j1 j2 j3 j4 j5 j6 j7 bV rV cV aV kV fV ≠ [] :=
    ne_nil_of_right_ne_nil j1 (ne_nil_of_left_ne_nil _ (fieldText_ne_nil _ _))
  exact updateAdvancedSettings_canonical ⟨some uS, some uT⟩ P Q R
    (smtpCT i1 i2 i3 i4 i5 i6 i7 hV dV uV wV lV tV)
    (s3CT j1 j2 j3 j4 j5 j6 j7 bV rV cV aV kV fV)
    (smtpCT i1 i2 i3 i4 i5 i6 i7 (pickS uS.Host hV) (pickN uS.Port dV)
      (pickS uS.Username uV) (pickS uS.Password wV) (pickS uS.LocalName lV)
      (pickB uS.TLS tV))
    (s3CT j1 j2 j3 j4 j5 j6 j7 (pickS uT.Bucket bV) (pickS uT.Region rV)
      (pickS uT.Endpoint cV) (pickS uT.AccessKey aV) (pickS uT.SecretKey kV)
      (pickB uT.ForcePathStyle fV))
    hSC hTC hcS hneS hcT hneT hfP hfQ

/-- Witness for the amended C9 theorem: a concrete canonical superuser
document and a concrete canonical SMTP/S3 document, with every field of both
sections updated; every first-match hypothesis holds by evaluation. -/
theorem configRewrites_frame_preserving_canonical_witness :
    updateSuperuserCredentials
        (String.mk (suCT "S ".data " , ".data " end".data "old@x.y".data "oldpw".data))
        "admin@ex.io" "pw1"
      = String.mk (suCT "S ".data " , ".data " end".data "admin@ex.io".data "pw1".data)
    ∧ updateAdvancedSettings
        ⟨some ⟨some "smtp.ex.io", some 26, some "user", some "sekret", some "loc", some true⟩,
          some ⟨some "bkt", some "eu", some "s3.ex.io", some "AK", some "SK", some false⟩⟩
        (String.mk (advCT "Cfg ".data " mid ".data " tail".data
          (smtpCT " ".data " ".data " ".data " ".data " ".data " ".data " ".data
            "h0".data "25".data "u0".data "w0".data "l0".data false)
          (s3CT " ".data " ".data " ".data " ".data " ".data " ".data " ".data
            "b0".data "r0".data "c0".data "a0".data "k0".data true)))
      = String.mk (advCT "Cfg ".data " mid ".data " tail".data
          (smtpCT " ".data " ".data " ".data " ".data " ".data " ".data " ".data
            "smtp.ex.io".data "26".data "user".data "sekret".data "loc".data true)
          (s3CT " ".data " ".data " ".data " ".data " ".data " ".data " ".data
            "bkt".data "eu".data "s3.ex.io".data "AK".data "SK".data false)) :=
  configRewrites_frame_preserving_canonical "admin@ex.io" "pw1"
    ⟨some "smtp.ex.io", some 26, some "user", some "sekret", some "loc", some true⟩
    ⟨some "bkt", some "eu", some "s3.ex.io", some "AK", some "SK", some false⟩
    "S ".data " , ".data " end".data "old@x.y".data "oldpw".data
    "Cfg ".data " mid ".data " tail".data
    " ".data " ".data " ".data " ".data " ".data " ".data " ".data
    "h0".data "25".data "u0".data "w0".data "l0".data false
    " ".data " ".data " ".data " ".data " ".data " ".data " ".data
    "b0".data "r0".data "c0".data "a0".data "k0".data true
    (by decide) (by decide) (by decide) (by decide) (by decide) (by decide) (by decide)
    (by decide) (by decide) (by decide) (by decide) (by decide) (by decide) (by decide)
    (by decide) (by decide) (by decide) (by decide) (by decide) (by decide) (by decide)
    (by decide) (by decide) (by decide) (by decide) (by decide) (by decide) (by decide)
    (by decide) (by decide) (by decide) (by decide)

end PocketBaseSpec
